import Mathlib

/-!
Shallow embedding of `ZODB/Connection.py` (trunk, `$Id: Connection.py,v 1.127`):
the per-session `Connection` of the ZODB object database.

OIDs, TIDs and serials are opaque 8-byte strings in the source, compared
lexicographically; they are modelled as `Nat`, with `z64` (the zero
oid/serial) modelled as `0`.  The named `version` string is modelled as a
`Nat`, `0` standing for the empty (trunk) version.  The external
collaborators the source consumes — the Storage, the TmpStore, the
PickleCache eviction machinery, the serialization Codec (ObjectWriter /
ConnectionObjectReader) and the Transaction coordinator — are modelled as
oracles exposing exactly the interface the Connection calls.  Registration
with the current transaction (`self.getTransaction().register(obj)`) is
recorded in a `txnRegistered` list.  Python object identity is modelled by a
heap of object references (`Nat` keys into `heap`); the cache and the
`_added` map store references into that heap.
-/

namespace ZODB

/-- Association-list lookup, modelling Python dict lookup `d.get(k)`. -/
def alook {α : Type} (l : List (Nat × α)) (k : Nat) : Option α :=
  match l with
  | [] => none
  | p :: t => if p.1 = k then some p.2 else alook t k

/-- Association-list update, modelling Python dict assignment `d[k] = v`. -/
def aset {α : Type} (l : List (Nat × α)) (k : Nat) (v : α) : List (Nat × α) :=
  (k, v) :: l.filter (fun p => p.1 ≠ k)

/-- Association-list deletion, modelling `del d[k]` / `d.pop(k, None)`. -/
def adel {α : Type} (l : List (Nat × α)) (k : Nat) : List (Nat × α) :=
  l.filter (fun p => p.1 ≠ k)

/-- Insertion into an oid set (the source uses Python dicts as sets). -/
def setAdd (l : List Nat) (k : Nat) : List Nat :=
  if k ∈ l then l else k :: l

/-- `d.update(oids)` on an oid set. -/
def setUnion (l : List Nat) (ks : List Nat) : List Nat :=
  ks.foldl setAdd l

theorem alook_nil {α : Type} (k : Nat) : alook ([] : List (Nat × α)) k = none := rfl

theorem alook_cons {α : Type} (p : Nat × α) (t : List (Nat × α)) (k : Nat) :
    alook (p :: t) k = if p.1 = k then some p.2 else alook t k := rfl

theorem alook_filter_ne {α : Type} (l : List (Nat × α)) (k k' : Nat) (h : k' ≠ k) :
    alook (l.filter (fun p => p.1 ≠ k)) k' = alook l k' := by
  induction l with
  | nil => rfl
  | cons p t ih =>
    rw [List.filter_cons]
    by_cases hp : p.1 = k
    · have hd : ¬ (decide (p.1 ≠ k) = true) := by simp [hp]
      rw [if_neg hd, ih, alook_cons]
      have hne : ¬ (p.1 = k') := by rw [hp]; exact fun e => h e.symm
      rw [if_neg hne]
    · have hd : decide (p.1 ≠ k) = true := by simp [hp]
      rw [if_pos hd, alook_cons, alook_cons]
      by_cases hk : p.1 = k'
      · rw [if_pos hk, if_pos hk]
      · rw [if_neg hk, if_neg hk, ih]

theorem alook_aset_self {α : Type} (l : List (Nat × α)) (k : Nat) (v : α) :
    alook (aset l k v) k = some v := by
  simp [aset, alook_cons]

theorem alook_aset_ne {α : Type} (l : List (Nat × α)) (k k' : Nat) (v : α) (h : k' ≠ k) :
    alook (aset l k v) k' = alook l k' := by
  have hkk : k ≠ k' := fun e => h e.symm
  rw [aset, alook_cons, if_neg hkk]
  exact alook_filter_ne l k k' h

theorem alook_adel_self {α : Type} (l : List (Nat × α)) (k : Nat) :
    alook (adel l k) k = none := by
  induction l with
  | nil => rfl
  | cons p t ih =>
    rw [adel, List.filter_cons]
    by_cases hp : p.1 = k
    · have hd : ¬ (decide (p.1 ≠ k) = true) := by simp [hp]
      rw [if_neg hd]; exact ih
    · have hd : decide (p.1 ≠ k) = true := by simp [hp]
      rw [if_pos hd, alook_cons, if_neg hp]; exact ih

theorem alook_adel_ne {α : Type} (l : List (Nat × α)) (k k' : Nat) (h : k' ≠ k) :
    alook (adel l k) k' = alook l k' := alook_filter_ne l k k' h

theorem mem_setAdd_self (l : List Nat) (k : Nat) : k ∈ setAdd l k := by
  by_cases h : k ∈ l <;> simp [setAdd, h]

theorem mem_setAdd_of_mem (l : List Nat) (k x : Nat) (h : x ∈ l) : x ∈ setAdd l k := by
  by_cases hk : k ∈ l <;> simp [setAdd, hk, h]

theorem mem_of_mem_setAdd (l : List Nat) (k x : Nat) (h : x ∈ setAdd l k) :
    x = k ∨ x ∈ l := by
  by_cases hk : k ∈ l
  · simp [setAdd, hk] at h; exact Or.inr h
  · simp [setAdd, hk] at h; exact h

/-- Where `_p_jar` points: unbound, this Connection, or a foreign Connection. -/
inductive JarRef
  | nil
  | this
  | other
deriving DecidableEq, Repr

/-- A persistent object as the Connection observes it.  `p_changed` is the
tri-state `_p_changed` (`none` = ghost, `some false` = up-to-date,
`some true` = changed); `p_serial` is `_p_serial` (`none` = Python `None`);
`stateData` is the in-memory materialized state (`none` for a ghost).
Capability probing for `_p_resolveConflict` / `_p_independent` is modelled
by boolean capability fields, `independentVal` being what `_p_independent()`
would return.  `hasOidSlot` is whether the object is first-class persistent
(has the `_p_oid` slot at all). -/
structure PObj where
  hasOidSlot : Bool := true
  p_oid : Option Nat := none
  p_jar : JarRef := .nil
  p_changed : Option Bool := none
  p_serial : Option Nat := none
  hasResolveConflict : Bool := false
  hasIndependent : Bool := false
  independentVal : Bool := false
  stateData : Option Nat := none
deriving DecidableEq, Repr

instance : Inhabited PObj := ⟨{}⟩

/-- `z64`, the zero oid / zero serial. -/
def z64 : Nat := 0

/-- The `ResolvedSerial` sentinel returned by the storage when conflict
resolution merged a write (the two bytes of the string `rs`). -/
def ResolvedSerial : Nat := 29299

/-- Result of `storage.loadBefore(oid, tid)`: a `KeyError`, Python `None`,
or a `(data, start, end)` triple with `end` possibly `None`. -/
inductive LBRes
  | keyErr
  | noneRes
  | found (data start : Nat) (endTid : Option Nat)
deriving DecidableEq, Repr

/-- One serial inside a store/vote return: a byte string, or a non-string
error payload that `_handle_one_serial` must re-raise. -/
inductive SerialPayload
  | str (s : Nat)
  | errPayload (e : Nat)
deriving DecidableEq, Repr

/-- Polymorphic return of `store()` / `tpc_vote()`: falsy, a plain string,
or a sequence of `(oid, serial)` pairs. -/
inductive StoreRet
  | falsy
  | strRet (s : Nat)
  | pairs (l : List (Nat × SerialPayload))
deriving DecidableEq, Repr

/-- Oracle model of the external Storage interface consumed by the source. -/
structure Storage where
  load : Nat → Nat → Option (Nat × Nat) := fun _ _ => none
  loadBefore : Nat → Option Nat → LBRes := fun _ _ => .keyErr
  storeRet : Nat → Option Nat → Nat → Nat → StoreRet := fun _ _ _ _ => .falsy
  voteRet : StoreRet := .falsy
  hasVote : Bool := true
  readOnly : Bool := false

/-- Oracle model of the external `TmpStore` used for subtransactions:
its `_index` and `_creating` lists plus load/store response oracles. -/
structure TmpStore where
  index : List Nat := []
  creatingList : List Nat := []
  loadFn : Nat → Option (Nat × Nat) := fun _ => none
  storeRetFn : Nat → StoreRet := fun _ => .falsy
  readOnlyB : Bool := false

/-- `self._storage` holds either the real storage or, inside a
subtransaction, the substituted TmpStore. -/
inductive StoreSide
  | real (s : Storage)
  | tmps (t : TmpStore)

def StoreSide.loadS : StoreSide → Nat → Nat → Option (Nat × Nat)
  | .real s, oid, v => s.load oid v
  | .tmps t, oid, _ => t.loadFn oid

def StoreSide.loadBeforeS : StoreSide → Nat → Option Nat → LBRes
  | .real s, oid, t => s.loadBefore oid t
  | .tmps _, _, _ => .keyErr

def StoreSide.storeS : StoreSide → Nat → Option Nat → Nat → Nat → StoreRet
  | .real s, oid, sr, p, v => s.storeRet oid sr p v
  | .tmps t, oid, _, _, _ => t.storeRetFn oid

def StoreSide.isReadOnlyS : StoreSide → Bool
  | .real s => s.readOnly
  | .tmps t => t.readOnlyB

/-- Oracle model of the owning Database, as consumed by the Connection. -/
structure DB where
  storageS : Storage := {}
  modifiedInVersionFn : Nat → Option Nat := fun _ => none

/-- Python-level exceptions the embedded methods can raise. -/
inductive PyErr
  | runtimeClosed
  | attrError
  | keyError
  | typeErrorNotPersistent
  | invalidObjectReference
  | readConflict (oid : Nat)
  | conflictErr (oid : Nat)
  | storageError (e : Nat)
  | assertionError
  | oidMissing
deriving DecidableEq, Repr

/-- The Connection state (`Connection.__init__` plus the attributes bound by
`_setDB`).  `newOidFn` is the oracle behind `new_oid()` (indexed by the
allocation counter `oidCtr`); `serializer` is the opaque
`ObjectWriter.serialize`. -/
structure Connection where
  storage : Option StoreSide := none
  tmp : Option StoreSide := none
  db : Option DB := none
  version : Nat := 0
  mvcc : Bool := true
  cache : List (Nat × Nat) := []
  heap : List (Nat × PObj) := []
  nextRef : Nat := 0
  added : List (Nat × Nat) := []
  modified : List Nat := []
  creating : List Nat := []
  invalidated : List Nat := []
  txn_time : Option Nat := none
  noncurrent : List Nat := []
  conflicts : List Nat := []
  load_count : Nat := 0
  store_count : Nat := 0
  oidCtr : Nat := 0
  newOidFn : Nat → Nat := fun n => n
  serializer : PObj → Nat := fun _ => 0
  txnRegistered : List Nat := []
  importPending : Bool := false

/-- A fresh `Connection(version, mvcc=mvcc)`:
`self._mvcc = mvcc and not version`. -/
def newConn (version : Nat) (mvcc : Bool) : Connection :=
  { version := version, mvcc := mvcc && version == 0 }

namespace Connection

/-- Heap dereference of an object reference. -/
def heapGet (c : Connection) (r : Nat) : PObj :=
  (alook c.heap r).getD default

/-- Heap update of an object reference. -/
def heapSet (c : Connection) (r : Nat) (o : PObj) : Connection :=
  { c with heap := aset c.heap r o }

/-- `PickleCache.invalidate` on one oid: ghostify the cached object if
present (the entry stays in the cache). -/
def cacheInvalidate1 (c : Connection) (oid : Nat) : Connection :=
  match alook c.cache oid with
  | none => c
  | some r => c.heapSet r { c.heapGet r with p_changed := none, stateData := none }

/-- `PickleCache.invalidate` on a collection of oids. -/
def cacheInvalidateList (c : Connection) (oids : List Nat) : Connection :=
  oids.foldl cacheInvalidate1 c

/-- `Connection.get(oid)`: closed check, cache hit, `_added` hit, else load
`(p, serial)` from storage, build a ghost via the Codec, stamp
`(_p_oid, _p_jar, _p_changed=None, _p_serial)` and insert into the cache.
Returns the object reference.  Note that `get` does not touch
`_load_count`. -/
def get (c : Connection) (oid : Nat) : Except PyErr (Nat × Connection) :=
  match c.storage with
  | none => .error .runtimeClosed
  | some st =>
    match alook c.cache oid with
    | some r => .ok (r, c)
    | none =>
      match alook c.added oid with
      | some r => .ok (r, c)
      | none =>
        match st.loadS oid c.version with
        | none => .error .keyError
        | some (_, serial) =>
          let r := c.nextRef
          let obj : PObj :=
            { hasOidSlot := true, p_oid := some oid, p_jar := .this,
              p_changed := none, p_serial := some serial, stateData := none }
          .ok (r, { c with nextRef := r + 1,
                           heap := aset c.heap r obj,
                           cache := aset c.cache oid r })

/-- `Connection.root()` is `get(z64)`. -/
def root (c : Connection) : Except PyErr (Nat × Connection) :=
  c.get z64

/-- `Connection.add(obj)`: closed check; `TypeError` for non-persistent
objects; allocate an oid, bind the jar, record in `_added` and register
with the transaction when unjarred; `InvalidObjectReference` when jarred
elsewhere; silently do nothing when already jarred here.  (The
`_added_during_commit` append only matters when `add` is re-entered from
the commit walk, which the sequential model does not do.) -/
def add (c : Connection) (r : Nat) : Except PyErr Connection :=
  match c.storage with
  | none => .error .runtimeClosed
  | some _ =>
    let obj := c.heapGet r
    if ¬ obj.hasOidSlot then .error .typeErrorNotPersistent
    else if obj.p_jar = .nil then
      -- assert obj._p_oid is None
      if obj.p_oid ≠ none then .error .assertionError
      else
        let oid := c.newOidFn c.oidCtr
        let c1 := c.heapSet r { obj with p_oid := some oid, p_jar := .this }
        .ok { c1 with oidCtr := c1.oidCtr + 1,
                      added := aset c1.added oid r,
                      txnRegistered := c1.txnRegistered ++ [r] }
    else if obj.p_jar ≠ .this then .error .invalidObjectReference
    else .ok c

/-- `Connection.getVersion()`. -/
def getVersion (c : Connection) : Except PyErr Nat :=
  match c.storage with
  | none => .error .runtimeClosed
  | some _ => .ok c.version

/-- `Connection.isReadOnly()`. -/
def isReadOnly (c : Connection) : Except PyErr Bool :=
  match c.storage with
  | none => .error .runtimeClosed
  | some st => .ok st.isReadOnlyS

/-- `Connection.modifiedInVersion(oid)`: delegates to
`self._db.modifiedInVersion(oid)` catching only `KeyError` (in which case it
returns `self._version`).  There is no closed-connection check: when the
connection has been closed, `self._db` is `None` and the attribute access
raises `AttributeError`. -/
def modifiedInVersion (c : Connection) (oid : Nat) : Except PyErr Nat :=
  match c.db with
  | none => .error .attrError
  | some db =>
    match db.modifiedInVersionFn oid with
    | none => .ok c.version
    | some v => .ok v

/-- `Connection.getTransferCounts(clear)`. -/
def getTransferCounts (c : Connection) (clear : Bool) : (Nat × Nat) × Connection :=
  let res := (c.load_count, c.store_count)
  if clear then (res, { c with load_count := 0, store_count := 0 })
  else (res, c)

/-- `Connection.invalidate(tid, oids)`: under the invalidation mutex, set
`_txn_time` if unset and merge the oids into `_invalidated`. -/
def invalidate (c : Connection) (tid : Nat) (oids : List Nat) : Connection :=
  let c1 := if c.txn_time = none then { c with txn_time := some tid } else c
  { c1 with invalidated := setUnion c1.invalidated oids }

/-- `Connection._flush_invalidations()`: assert `noncurrent ⊆ invalidated`,
invalidate every oid in `_invalidated` in the cache, then clear
`_invalidated`, `_noncurrent` and `_txn_time`.  (The trailing
`cache.incrgc()` is external cache eviction, a no-op in the model.) -/
def flush_invalidations (c : Connection) : Connection × Option PyErr :=
  if c.noncurrent.all (fun oid => decide (oid ∈ c.invalidated)) then
    ({ c.cacheInvalidateList c.invalidated with
         invalidated := [], noncurrent := [], txn_time := none }, none)
  else (c, some .assertionError)

/-- `Connection._resetCache()`: discard the cache (a fresh `PickleCache`)
and clear `_invalidated`.  Nothing else is touched. -/
def resetCache (c : Connection) : Connection :=
  { c with invalidated := [], cache := [] }

/-- `Connection.close()`: run a final cache sweep and the close callbacks
(both external), clear the storage shortcuts and return the connection to
the pool (`self._db = None`). -/
def close (c : Connection) : Connection :=
  { c with storage := none, tmp := none, db := none }

/-- `Connection._setDB(odb)`: wire up the database and storage, then either
reset the cache (when the process-wide reset counter moved, abstracted by
`ctrMoved`) or flush pending invalidations. -/
def setDB (c : Connection) (db : DB) (ctrMoved : Bool) : Connection × Option PyErr :=
  let c1 := { c with db := some db, storage := some (.real db.storageS) }
  if ctrMoved then (c1.resetCache, none)
  else c1.flush_invalidations

/-- `self._reader.setGhostState(obj, p); obj._p_serial = serial`: install the
loaded state into the ghost (the object becomes up-to-date). -/
def setGhostStateAt (c : Connection) (r : Nat) (p serial : Nat) : Connection :=
  c.heapSet r { c.heapGet r with
                  stateData := some p, p_changed := some false, p_serial := some serial }

end Connection

/-- Outcome of `_setstate_noncurrent`: `True` (with the updated state),
`False`, or a failed internal assert. -/
inductive NCRes
  | success (c : Connection)
  | failure
  | assertFail

/-- Python 2 comparison `start < txn_time` where `txn_time` may be `None`
(in Python 2 `None` sorts below every string, so `start < None` is false). -/
def pyLtOpt (start : Nat) : Option Nat → Bool
  | none => false
  | some t => start < t

/-- Python 2 comparison `txn_time <= end` with `txn_time` possibly `None`. -/
def pyLeOpt : Option Nat → Nat → Bool
  | none, _ => true
  | some t, e => t ≤ e

/-- The second assert of `_setstate_noncurrent`:
`end is None or self._txn_time <= end`. -/
def endCheck (tt : Option Nat) : Option Nat → Bool
  | none => true
  | some e => pyLeOpt tt e

namespace Connection

/-- `Connection._setstate_noncurrent(obj)`: `loadBefore(oid, txn_time)`;
`KeyError` or `None` mean no historical state; otherwise assert
`start < txn_time` and (`end is None or txn_time <= end`), record the oid in
`_noncurrent` iff `end` is not `None`, install `data` and set
`_p_serial = start`. -/
def setstate_noncurrent (c : Connection) (r : Nat) (oid : Nat) (st : StoreSide) : NCRes :=
  match st.loadBeforeS oid c.txn_time with
  | .keyErr => .failure
  | .noneRes => .failure
  | .found data start endTid =>
    if ¬ pyLtOpt start c.txn_time then .assertFail
    else if ¬ endCheck c.txn_time endTid then .assertFail
    else
      let c1 := match endTid with
        | none => c
        | some _ => { c with noncurrent := setAdd c.noncurrent oid }
      .success (c1.setGhostStateAt r data start)

/-- `Connection._load_before_or_conflict(obj)`: try the MVCC fallback; on
failure register the object with the transaction, record the oid in
`_conflicts` and raise `ReadConflictError`. -/
def load_before_or_conflict (c : Connection) (r : Nat) (oid : Nat) (st : StoreSide) :
    Connection × Option PyErr :=
  if c.mvcc then
    match c.setstate_noncurrent r oid st with
    | .success c1 => (c1, none)
    | .assertFail => (c, some .assertionError)
    | .failure =>
      ({ c with txnRegistered := c.txnRegistered ++ [r],
                conflicts := setAdd c.conflicts oid }, some (.readConflict oid))
  else
    ({ c with txnRegistered := c.txnRegistered ++ [r],
              conflicts := setAdd c.conflicts oid }, some (.readConflict oid))

/-- `Connection._setstate(obj)` (the body behind `setstate`): the
invalidation-aware load path, inlining `_handle_independent`.  Note this is
the only place `_load_count` is incremented. -/
def setstate (c : Connection) (r : Nat) : Connection × Option PyErr :=
  match (c.heapGet r).p_oid with
  | none => (c, some .oidMissing)   -- model guard: cached objects always carry an oid
  | some oid =>
    match c.storage with
    | none => (c, some .runtimeClosed)
    | some st =>
      if oid ∈ c.invalidated ∧ ¬ (c.heapGet r).hasIndependent then
        c.load_before_or_conflict r oid st
      else
        match st.loadS oid c.version with
        | none => (c, some .keyError)
        | some (p, serial) =>
          let c1 := { c with load_count := c.load_count + 1 }
          if oid ∈ c1.invalidated then
            if (c1.heapGet r).hasIndependent then
              -- _handle_independent(obj)
              if (c1.heapGet r).independentVal then
                let c2 := { c1 with invalidated := c1.invalidated.filter (fun x => x ≠ oid) }
                (c2.setGhostStateAt r p serial, none)
              else
                ({ c1 with txnRegistered := c1.txnRegistered ++ [r] },
                 some (.readConflict oid))
            else
              c1.load_before_or_conflict r oid st
          else
            (c1.setGhostStateAt r p serial, none)

/-- `Connection._handle_one_serial(oid, serial, change)`: re-raise non-string
payloads, ignore oids missing from the cache, ghostify on `ResolvedSerial`,
else set `_p_changed = 0` (only when `change`) and `_p_serial = serial`. -/
def handle_one_serial (c : Connection) (oid : Nat) (payload : SerialPayload) (change : Bool) :
    Connection × Option PyErr :=
  match payload with
  | .errPayload e => (c, some (.storageError e))
  | .str serial =>
    match alook c.cache oid with
    | none => (c, none)
    | some r =>
      if serial = ResolvedSerial then
        -- del obj._p_changed: transition from changed to ghost
        (c.heapSet r { c.heapGet r with p_changed := none, stateData := none }, none)
      else
        let o := c.heapGet r
        let o1 := if change then { o with p_changed := some false } else o
        (c.heapSet r { o1 with p_serial := some serial }, none)

/-- `Connection._handle_serial(store_return, oid, change)`. -/
def handle_serial (c : Connection) (ret : StoreRet) (oid : Option Nat) (change : Bool) :
    Connection × Option PyErr :=
  match ret with
  | .falsy => (c, none)
  | .strRet s =>
    match oid with
    | none => (c, some .assertionError)   -- assert oid is not None
    | some o => c.handle_one_serial o (.str s) change
  | .pairs l =>
    l.foldl (fun acc pr =>
      match acc with
      | (cc, some e) => (cc, some e)
      | (cc, none) => cc.handle_one_serial pr.1 pr.2 change) (c, none)

/-- The tail of one commit-walk iteration: `p = w.serialize(obj)`,
`s = storage.store(oid, serial, p, version, txn)`, bump `_store_count`,
insert the object into the cache, feed the return to `_handle_serial`. -/
def store_and_cache (c : Connection) (s oid : Nat) (serial : Option Nat) :
    Connection × Option PyErr :=
  match c.storage with
  | none => (c, some .attrError)
  | some st =>
    let p := c.serializer (c.heapGet s)   -- w.serialize(obj)
    let ret := st.storeS oid serial p c.version
    let c2 := { c with store_count := c.store_count + 1 }
    let c3 := { c2 with cache := aset c2.cache oid s }
    c3.handle_serial ret (some oid) true

/-- One step of the commit write-walk (the body of the
`for obj in itertools.chain(w, self._added_during_commit)` loop).
`outerResolve` is `hasattr(object, "_p_resolveConflict")`: the source
consults the initially committed `object`, not the walked `obj`. -/
def commit_one (outerResolve : Bool) (c : Connection) (s : Nat) : Connection × Option PyErr :=
  let o := c.heapGet s
  match o.p_oid with
  | none => (c, some .oidMissing)   -- model guard: the writer stamps oids before yielding
  | some oid =>
    let serial := o.p_serial        -- getattr(obj, "_p_serial", z64)
    if serial = some z64 ∨ serial = none then
      store_and_cache
        { c with creating := c.creating ++ [oid], added := adel c.added oid } s oid serial
    else
      if oid ∈ c.invalidated ∧ ¬ outerResolve then
        (c, some (.conflictErr oid))
      else
        store_and_cache { c with modified := c.modified ++ [oid] } s oid serial

/-- One fold step of the commit write-walk, absorbing a raised error. -/
def commit_step (outerResolve : Bool) (acc : Connection × Option PyErr) (s : Nat) :
    Connection × Option PyErr :=
  match acc with
  | (cc, some e) => (cc, some e)
  | (cc, none) => commit_one outerResolve cc s

/-- The commit write-walk as a fold, short-circuiting on a raised error. -/
def commit_walk (outerResolve : Bool) (start : Connection) (walk : List Nat) :
    Connection × Option PyErr :=
  walk.foldl (commit_step outerResolve) (start, none)

/-- `Connection.commit(object, transaction)` for a normal registered object
(the `object is self` import hook is out of scope).  The Codec's write
sequence (`ObjectWriter` output chained with the drained
`_added_during_commit` queue) is the oracle parameter `walk`; its first
element is the committed object itself. -/
def commit (c : Connection) (r : Nat) (walk : List Nat) : Connection × Option PyErr :=
  let obj := c.heapGet r
  let conflicted := match obj.p_oid with
    | some oid => decide (oid ∈ c.conflicts)
    | none => false
  if conflicted then
    ({ c with txnRegistered := c.txnRegistered ++ [r] },
     some (.readConflict (obj.p_oid.getD 0)))
  else if obj.p_oid = none ∨ obj.p_jar ≠ .this then
    -- new object
    let oid := c.newOidFn c.oidCtr
    let c1 := c.heapSet r { obj with p_jar := .this, p_oid := some oid }
    let c1 := { c1 with oidCtr := c1.oidCtr + 1, creating := c1.creating ++ [oid] }
    commit_walk obj.hasResolveConflict c1 walk
  else
    match obj.p_oid with
    | none => (c, none)   -- unreachable: covered by the previous branch
    | some oid =>
      if (alook c.added oid).isSome then
        commit_walk obj.hasResolveConflict
          { c with creating := c.creating ++ [oid], added := adel c.added oid } walk
      else if obj.p_changed = some true then
        if oid ∈ c.invalidated ∧ ¬ obj.hasResolveConflict then
          (c, some (.conflictErr oid))
        else
          commit_walk obj.hasResolveConflict
            { c with modified := c.modified ++ [oid] } walk
      else
        (c, none)   -- nothing to do

/-- `Connection.tpc_begin(transaction, sub)`. -/
def tpc_begin (c : Connection) (sub : Bool) : Connection :=
  let c1 := { c with modified := [], creating := [] }
  if sub then
    match c1.tmp with
    | none => { c1 with tmp := c1.storage, storage := some (.tmps {}) }
    | some _ => c1
  else c1

/-- `Connection.tpc_vote(transaction)`: forward to the storage when it has a
`tpc_vote` (a missing attribute, including a closed connection, is caught),
feeding the return through `_handle_serial`. -/
def tpc_vote (c : Connection) : Connection × Option PyErr :=
  match c.storage with
  | none => (c, none)
  | some (.tmps _) => (c, none)
  | some (.real s) =>
    if s.hasVote then c.handle_serial s.voteRet none true
    else (c, none)

/-- The body of the `_invalidate_creating` loop for one oid: drop the cached
object and unbind its jar and oid. -/
def invalidate_creating_step (cc : Connection) (oid : Nat) : Connection :=
  match alook cc.cache oid with
  | none => cc
  | some r =>
    let o := cc.heapGet r
    let cc1 := { cc with cache := adel cc.cache oid }
    cc1.heapSet r { o with p_jar := .nil, p_oid := none }

/-- `Connection._invalidate_creating(creating)` over an explicit list. -/
def invalidate_creating_list (c : Connection) (l : List Nat) : Connection :=
  l.foldl invalidate_creating_step c

/-- `Connection._invalidate_creating()` with the default argument: consume
`self._creating`. -/
def invalidate_creating (c : Connection) : Connection :=
  invalidate_creating_list { c with creating := [] } c.creating

/-- One step of the `tpc_abort` added-draining loop:
`del obj._p_oid; del obj._p_jar`. -/
def drain_step (cc : Connection) (pr : Nat × Nat) : Connection :=
  cc.heapSet pr.2 { cc.heapGet pr.2 with p_oid := none, p_jar := .nil }

/-- Draining loop at the end of `tpc_abort`: `while self._added: popitem();
del obj._p_oid; del obj._p_jar`. -/
def drain_added (c : Connection) : Connection :=
  { c.added.foldl drain_step c with added := [] }

/-- `Connection.tpc_abort(transaction)`. -/
def tpc_abort (c : Connection) : Connection × Option PyErr :=
  let c1 := { c with importPending := false }
  -- self._storage.tpc_abort(transaction): external
  let c2 := c1.cacheInvalidateList c1.modified
  match c2.flush_invalidations with
  | (c3, some e) => (c3, some e)
  | (c3, none) =>
    let c4 := { c3 with conflicts := [] }
    let c5 := c4.invalidate_creating
    (c5.drain_added, none)

/-- `Connection.tpc_finish(transaction)`.  In a subtransaction the creating
list is prepended into the TmpStore's `_creating`; otherwise the finish
callback makes the Database broadcast invalidations for `modified` under the
storage commit lock (an external side effect).  Both paths then clear
`_conflicts` and flush invalidations. -/
def tpc_finish (c : Connection) : Connection × Option PyErr :=
  let c1 :=
    match c.tmp with
    | some _ =>
      match c.storage with
      | some (.tmps t) =>
        { c with storage := some (.tmps { t with creatingList := c.creating ++ t.creatingList }),
                 creating := [] }
      | _ => c   -- unreachable: tmp is set only while the TmpStore substitutes
    | none => c
  let c2 := { c1 with conflicts := [] }
  c2.flush_invalidations

/-- `Connection.abort(object, transaction)` for a normal object: deactivate
it, or unbind it when it was only ever `add()`ed. -/
def abortObj (c : Connection) (r : Nat) : Connection × Option PyErr :=
  let o := c.heapGet r
  match o.p_oid with
  | none => (c, some .assertionError)   -- assert oid is not None
  | some oid =>
    if (alook c.added oid).isSome then
      let c1 := { c with added := adel c.added oid }
      (c1.heapSet r { o with p_jar := .nil, p_oid := none }, none)
    else
      (c.cacheInvalidate1 oid, none)

/-- One step of the transaction-abort loop driven by the coordinator,
absorbing a raised error. -/
def abort_step (acc : Connection × Option PyErr) (r : Nat) : Connection × Option PyErr :=
  match acc with
  | (cc, some e) => (cc, some e)
  | (cc, none) => cc.abortObj r

/-- `Connection.sync()`: the ambient transaction abort makes the coordinator
call `abort(obj, txn)` for each registered object and empty its registry
(external Transaction contract); then the optional storage sync (external)
and `_flush_invalidations`. -/
def sync (c : Connection) : Connection × Option PyErr :=
  let regs := c.txnRegistered
  let c0 := { c with txnRegistered := [] }
  match regs.foldl abort_step (c0, none) with
  | (c1, some e) => (c1, some e)
  | (c1, none) => c1.flush_invalidations

/-- `Connection.commit_sub(t)`: swap the real storage back in, copy the
TmpStore's invalidating and creating info, then re-store every oid of its
index into the real storage, routing each return through `_handle_serial`
with `change=0`. -/
def commit_sub (c : Connection) : Connection × Option PyErr :=
  match c.tmp with
  | none => (c, none)
  | some realSt =>
    match c.storage with
    | some (.tmps src) =>
      let c1 := { c with storage := some realSt, tmp := none }
      -- tmp.tpc_begin(t): external
      let c2 := { c1 with modified := c1.modified ++ src.index,
                          creating := c1.creating ++ src.creatingList }
      src.index.foldl (fun acc oid =>
        match acc with
        | (cc, some e) => (cc, some e)
        | (cc, none) =>
          match src.loadFn oid with
          | none => (cc, some .keyError)
          | some (data, serial) =>
            match cc.storage with
            | some st =>
              let ret := st.storeS oid (some serial) data cc.version
              cc.handle_serial ret (some oid) false
            | none => (cc, some .attrError)) (c2, none)
    | _ => (c, some .attrError)

/-- `Connection.abort_sub(t)`: swap back, invalidate the TmpStore's oids in
the cache and dissown its creating set. -/
def abort_sub (c : Connection) : Connection × Option PyErr :=
  match c.tmp with
  | none => (c, none)
  | some realSt =>
    match c.storage with
    | some (.tmps src) =>
      let c1 := { c with tmp := none, storage := some realSt }
      let c2 := c1.cacheInvalidateList src.index
      (c2.invalidate_creating_list src.creatingList, none)
    | _ => (c, some .attrError)

end Connection

/-- The operations on a Connection (the public application and transaction
interfaces plus the Database-facing entry points), each carrying the
external inputs it consumes. -/
inductive Op
  | opInvalidate (tid : Nat) (oids : List Nat)
  | opSetstate (r : Nat)
  | opCommit (r : Nat) (walk : List Nat)
  | opTpcBegin (sub : Bool)
  | opTpcVote
  | opTpcFinish
  | opTpcAbort
  | opCommitSub
  | opAbortSub
  | opSync
  | opAbortObj (r : Nat)
  | opClose
  | opAdd (r : Nat)
  | opGet (oid : Nat)
  | opSetDB (db : DB) (ctrMoved : Bool)

/-- One operation applied to a Connection state: the successor state and the
raised exception, if any. -/
def applyOp (op : Op) (c : Connection) : Connection × Option PyErr :=
  match op with
  | .opInvalidate tid oids => (c.invalidate tid oids, none)
  | .opSetstate r => c.setstate r
  | .opCommit r walk => c.commit r walk
  | .opTpcBegin sub => (c.tpc_begin sub, none)
  | .opTpcVote => c.tpc_vote
  | .opTpcFinish => c.tpc_finish
  | .opTpcAbort => c.tpc_abort
  | .opCommitSub => c.commit_sub
  | .opAbortSub => c.abort_sub
  | .opSync => c.sync
  | .opAbortObj r => c.abortObj r
  | .opClose => (c.close, none)
  | .opAdd r => match c.add r with | .ok c1 => (c1, none) | .error e => (c, some e)
  | .opGet oid => match c.get oid with | .ok (_, c1) => (c1, none) | .error e => (c, some e)
  | .opSetDB db ctrMoved => c.setDB db ctrMoved

/-- Connection states reachable from a freshly constructed Connection by any
sequence of operations. -/
inductive Reachable : Connection → Prop
  | init (version : Nat) (mvcc : Bool) : Reachable (newConn version mvcc)
  | step (c : Connection) (op : Op) : Reachable c → Reachable (applyOp op c).1

/-! Basic lemmas about the heap and the fold combinators. -/

theorem heapGet_heapSet_self (c : Connection) (r : Nat) (o : PObj) :
    (c.heapSet r o).heapGet r = o := by
  simp [Connection.heapGet, Connection.heapSet, alook_aset_self]

theorem heapGet_heapSet_ne (c : Connection) (r r' : Nat) (o : PObj) (h : r' ≠ r) :
    (c.heapSet r o).heapGet r' = c.heapGet r' := by
  simp [Connection.heapGet, Connection.heapSet, alook_aset_ne _ _ _ _ h]

theorem foldl_pres_conn {β : Type} (f : Connection → β → Connection) (P : Connection → Prop)
    (hf : ∀ c b, P c → P (f c b)) :
    ∀ (l : List β) (c : Connection), P c → P (List.foldl f c l) := by
  intro l
  induction l with
  | nil => intro c h; exact h
  | cons b t ih => intro c h; exact ih _ (hf _ _ h)

theorem foldl_pres_res {β : Type} (f : Connection × Option PyErr → β → Connection × Option PyErr)
    (P : Connection → Prop)
    (hf : ∀ acc b, P acc.1 → P (f acc b).1) :
    ∀ (l : List β) (acc : Connection × Option PyErr), P acc.1 → P (List.foldl f acc l).1 := by
  intro l
  induction l with
  | nil => intro acc h; exact h
  | cons b t ih => intro acc h; exact ih _ (hf _ _ h)

/-! Control-field frame lemmas: most operations leave `conflicts`,
`invalidated`, `txn_time` and `noncurrent` untouched. -/

/-- The four control fields the invariant claims are about are equal. -/
def CtlEq (c c' : Connection) : Prop :=
  c'.conflicts = c.conflicts ∧ c'.invalidated = c.invalidated ∧
  c'.txn_time = c.txn_time ∧ c'.noncurrent = c.noncurrent

theorem ctlEq_refl (c : Connection) : CtlEq c c := ⟨rfl, rfl, rfl, rfl⟩

theorem ctlEq_trans {a b c : Connection} (h1 : CtlEq a b) (h2 : CtlEq b c) : CtlEq a c :=
  ⟨h2.1.trans h1.1, h2.2.1.trans h1.2.1, h2.2.2.1.trans h1.2.2.1, h2.2.2.2.trans h1.2.2.2⟩

theorem ctl_heapSet (c : Connection) (r : Nat) (o : PObj) : CtlEq c (c.heapSet r o) :=
  ⟨rfl, rfl, rfl, rfl⟩

theorem ctl_cacheInvalidate1 (c : Connection) (oid : Nat) :
    CtlEq c (c.cacheInvalidate1 oid) := by
  unfold Connection.cacheInvalidate1
  split
  · exact ctlEq_refl c
  · exact ctl_heapSet _ _ _

theorem ctl_cacheInvalidateList (c : Connection) (l : List Nat) :
    CtlEq c (c.cacheInvalidateList l) := by
  unfold Connection.cacheInvalidateList
  exact foldl_pres_conn _ (CtlEq c)
    (fun cc oid h => ctlEq_trans h (ctl_cacheInvalidate1 cc oid)) l c (ctlEq_refl c)

theorem ctl_handle_one_serial (c : Connection) (oid : Nat) (p : SerialPayload) (ch : Bool) :
    CtlEq c (c.handle_one_serial oid p ch).1 := by
  unfold Connection.handle_one_serial
  split
  · exact ctlEq_refl c
  · split
    · exact ctlEq_refl c
    · split
      · exact ctl_heapSet _ _ _
      · exact ctl_heapSet _ _ _

theorem ctl_handle_serial (c : Connection) (ret : StoreRet) (oid : Option Nat) (ch : Bool) :
    CtlEq c (c.handle_serial ret oid ch).1 := by
  unfold Connection.handle_serial
  split
  · exact ctlEq_refl c
  · split
    · exact ctlEq_refl c
    · exact ctl_handle_one_serial _ _ _ _
  · refine foldl_pres_res _ (CtlEq c) ?_ _ (c, none) (ctlEq_refl c)
    intro acc b h
    obtain ⟨cc, e⟩ := acc
    cases e with
    | some e => exact h
    | none =>
      dsimp only
      exact ctlEq_trans h (ctl_handle_one_serial cc b.1 b.2 ch)

theorem ctl_store_and_cache (c : Connection) (s oid : Nat) (serial : Option Nat) :
    CtlEq c (Connection.store_and_cache c s oid serial).1 := by
  unfold Connection.store_and_cache
  split
  · exact ctlEq_refl c
  · exact ctlEq_trans ⟨rfl, rfl, rfl, rfl⟩ (ctl_handle_serial _ _ _ _)

theorem ctl_commit_one (o : Bool) (c : Connection) (s : Nat) :
    CtlEq c (Connection.commit_one o c s).1 := by
  unfold Connection.commit_one
  dsimp only
  split
  · exact ctlEq_refl c
  · split
    · exact ctlEq_trans ⟨rfl, rfl, rfl, rfl⟩ (ctl_store_and_cache _ _ _ _)
    · split
      · exact ctlEq_refl c
      · exact ctlEq_trans ⟨rfl, rfl, rfl, rfl⟩ (ctl_store_and_cache _ _ _ _)

theorem ctl_commit_walk (o : Bool) (c : Connection) (l : List Nat) :
    CtlEq c (Connection.commit_walk o c l).1 := by
  unfold Connection.commit_walk
  refine foldl_pres_res _ (CtlEq c) ?_ l (c, none) (ctlEq_refl c)
  intro acc b h
  unfold Connection.commit_step
  obtain ⟨cc, e⟩ := acc
  cases e with
  | some e => exact h
  | none =>
    dsimp only
    exact ctlEq_trans h (ctl_commit_one o cc b)

theorem ctl_commit (c : Connection) (r : Nat) (walk : List Nat) :
    CtlEq c (c.commit r walk).1 := by
  unfold Connection.commit
  dsimp only
  split
  · exact ctlEq_refl c
  · split
    · exact ctlEq_trans ⟨rfl, rfl, rfl, rfl⟩ (ctl_commit_walk _ _ _)
    · split
      · exact ctlEq_refl c
      · split
        · exact ctlEq_trans ⟨rfl, rfl, rfl, rfl⟩ (ctl_commit_walk _ _ _)
        · split
          · split
            · exact ctlEq_refl c
            · exact ctlEq_trans ⟨rfl, rfl, rfl, rfl⟩ (ctl_commit_walk _ _ _)
          · exact ctlEq_refl c

theorem ctl_tpc_begin (c : Connection) (sub : Bool) : CtlEq c (c.tpc_begin sub) := by
  unfold Connection.tpc_begin
  dsimp only
  split
  · split <;> exact ⟨rfl, rfl, rfl, rfl⟩
  · exact ⟨rfl, rfl, rfl, rfl⟩

theorem ctl_tpc_vote (c : Connection) : CtlEq c (c.tpc_vote).1 := by
  unfold Connection.tpc_vote
  split
  · exact ctlEq_refl c
  · exact ctlEq_refl c
  · split
    · exact ctl_handle_serial _ _ _ _
    · exact ctlEq_refl c

theorem ctl_invalidate_creating_list (c : Connection) (l : List Nat) :
    CtlEq c (c.invalidate_creating_list l) := by
  unfold Connection.invalidate_creating_list
  refine foldl_pres_conn _ (CtlEq c) ?_ l c (ctlEq_refl c)
  intro cc oid h
  unfold Connection.invalidate_creating_step
  split
  · exact h
  · exact ctlEq_trans h (ctl_heapSet _ _ _)

theorem ctl_invalidate_creating (c : Connection) : CtlEq c c.invalidate_creating := by
  unfold Connection.invalidate_creating
  exact ctlEq_trans ⟨rfl, rfl, rfl, rfl⟩ (ctl_invalidate_creating_list _ _)

theorem ctl_drain_added (c : Connection) : CtlEq c (c.drain_added) := by
  unfold Connection.drain_added
  have h := foldl_pres_conn Connection.drain_step
    (CtlEq c) (fun cc pr h => ctlEq_trans h (ctl_heapSet _ _ _)) c.added c (ctlEq_refl c)
  exact ctlEq_trans h ⟨rfl, rfl, rfl, rfl⟩

theorem ctl_abortObj (c : Connection) (r : Nat) : CtlEq c (c.abortObj r).1 := by
  unfold Connection.abortObj
  dsimp only
  split
  · exact ctlEq_refl c
  · split
    · exact ctlEq_trans ⟨rfl, rfl, rfl, rfl⟩ (ctl_heapSet _ _ _)
    · exact ctl_cacheInvalidate1 _ _

theorem ctl_close (c : Connection) : CtlEq c c.close := ⟨rfl, rfl, rfl, rfl⟩

theorem ctl_commit_sub (c : Connection) : CtlEq c (c.commit_sub).1 := by
  unfold Connection.commit_sub
  split
  · exact ctlEq_refl c
  · split
    · dsimp only
      refine foldl_pres_res _ (CtlEq c) ?_ _ _ ⟨rfl, rfl, rfl, rfl⟩
      intro acc b h
      obtain ⟨cc, e⟩ := acc
      cases e with
      | some e => exact h
      | none =>
        dsimp only
        split
        · exact h
        · split
          · exact ctlEq_trans h (ctl_handle_serial _ _ _ _)
          · exact h
    · exact ctlEq_refl c

theorem ctl_chain (c c0 : Connection) (h0 : CtlEq c c0) (l1 l2 : List Nat) :
    CtlEq c ((c0.cacheInvalidateList l1).invalidate_creating_list l2) :=
  ctlEq_trans (ctlEq_trans h0 (ctl_cacheInvalidateList c0 l1))
    (ctl_invalidate_creating_list _ l2)

theorem ctl_abort_sub (c : Connection) : CtlEq c (c.abort_sub).1 := by
  unfold Connection.abort_sub
  split
  · exact ctlEq_refl c
  · split
    · dsimp only
      refine ctl_chain c _ ?_ _ _
      exact ⟨rfl, rfl, rfl, rfl⟩
    · exact ctlEq_refl c

theorem ctl_add (c : Connection) (r : Nat) :
    ∀ c1, c.add r = .ok c1 → CtlEq c c1 := by
  intro c1 h
  unfold Connection.add at h
  split at h
  · exact Except.noConfusion h
  · dsimp only at h
    split at h
    · exact Except.noConfusion h
    · split at h
      · split at h
        · exact Except.noConfusion h
        · have he := Except.ok.inj h
          subst he
          exact ⟨rfl, rfl, rfl, rfl⟩
      · split at h
        · exact Except.noConfusion h
        · have he := Except.ok.inj h
          subst he
          exact ctlEq_refl c

theorem ctl_get (c : Connection) (oid : Nat) :
    ∀ r c1, c.get oid = .ok (r, c1) → CtlEq c c1 := by
  intro r c1 h
  unfold Connection.get at h
  split at h
  · exact Except.noConfusion h
  · split at h
    · have hc1 : c = c1 := congrArg Prod.snd (Except.ok.inj h)
      subst hc1
      exact ctlEq_refl c
    · split at h
      · have hc1 : c = c1 := congrArg Prod.snd (Except.ok.inj h)
        subst hc1
        exact ctlEq_refl c
      · split at h
        · exact Except.noConfusion h
        · have hc1 := congrArg Prod.snd (Except.ok.inj h)
          subst hc1
          exact ⟨rfl, rfl, rfl, rfl⟩


/-! Claim C10: idempotence of `add` on already-bound objects. -/

/-- C10: `add(obj)` on a persistent object already bound to this Connection
(`_p_jar is self`) returns silently: no oid is allocated, the `_added` map
is untouched, nothing is registered with the transaction, and no error is
raised — the Connection state is returned unchanged. -/
theorem C10_add_idempotent (c : Connection) (r : Nat) (st : StoreSide)
    (hst : c.storage = some st)
    (hslot : (c.heapGet r).hasOidSlot = true)
    (hjar : (c.heapGet r).p_jar = .this) :
    c.add r = .ok c := by
  unfold Connection.add
  rw [hst]
  simp [hslot, hjar]

def stor10 : Storage := {}

def conn10 : Connection :=
  { storage := some (.real stor10),
    heap := [(0, { p_oid := some 5, p_jar := .this, p_changed := some false })] }

/-- C10 witness: a concrete open connection with an object bound to it, on
which `add` returns the state unchanged. -/
theorem C10_add_idempotent_witness : conn10.add 0 = .ok conn10 :=
  C10_add_idempotent conn10 0 (.real stor10) rfl rfl rfl

/-! Claim C9: the thin delegations after `close()`. -/

def stor9 : Storage := {}

def conn9 : Connection :=
  Connection.close { storage := some (.real stor9), db := some {} }

/-- C9 counterexample: on a Connection whose storage has been cleared by
`close()`, `modifiedInVersion(oid)` does not fail with the closed-connection
error: `close` also clears `self._db`, and the attribute access on `None`
raises `AttributeError` (only `KeyError` is caught), an unrelated error. -/
theorem C9_counterexample :
    conn9.storage = none ∧
    conn9.modifiedInVersion 7 = .error .attrError ∧
    conn9.modifiedInVersion 7 ≠ .error .runtimeClosed := by
  refine ⟨rfl, rfl, ?_⟩
  intro h
  exact PyErr.noConfusion (Except.error.inj h)

/-- C9 (amended): after `close()` clears the storage and database
references, `isReadOnly()` and `getVersion()` fail with the
closed-connection error, while `modifiedInVersion(oid)` — which never checks
the storage — fails with `AttributeError` on the cleared `_db`. -/
theorem C9_closed_delegations (c : Connection) (oid : Nat) :
    (c.close).getVersion = .error .runtimeClosed ∧
    (c.close).isReadOnly = .error .runtimeClosed ∧
    (c.close).modifiedInVersion oid = .error .attrError :=
  ⟨rfl, rfl, rfl⟩

/-! Claim C4: `_handle_one_serial`. -/

def conn4 : Connection :=
  { cache := [(7, 0)],
    heap := [(0, { p_oid := some 7, p_jar := .this, p_changed := some true,
                   p_serial := some 3, stateData := some 11 })] }

/-- C4 counterexample: with `change = false` and a non-Resolved string
serial, `_handle_one_serial` still overwrites `_p_serial` — the
`_p_serial = serial` assignment sits outside the `if change:` guard — so the
claim that `_p_serial` is set only when `change` is true fails. -/
theorem C4_counterexample :
    (conn4.heapGet 0).p_serial = some 3 ∧
    ((conn4.handle_one_serial 7 (.str 5) false).1.heapGet 0).p_serial = some 5 ∧
    ((conn4.handle_one_serial 7 (.str 5) false).1.heapGet 0).p_changed = some true ∧
    (conn4.handle_one_serial 7 (.str 5) false).2 = none := by
  refine ⟨rfl, ?_, ?_, ?_⟩ <;> decide

/-- C4 (amended): `_handle_one_serial(oid, serial, change)` semantics: a
non-string payload is re-raised with no object metadata mutated; an oid
absent from the cache is ignored; `ResolvedSerial` turns the cached object
back into a ghost (in-memory state dropped); otherwise `_p_serial` is set to
the serial unconditionally, while `_p_changed = false` is applied only when
`change` is true. -/
theorem C4_handle_one_serial_spec (c : Connection) (oid : Nat) (change : Bool) :
    (∀ e, c.handle_one_serial oid (.errPayload e) change = (c, some (.storageError e))) ∧
    (alook c.cache oid = none →
      ∀ s, c.handle_one_serial oid (.str s) change = (c, none)) ∧
    (∀ r, alook c.cache oid = some r →
      c.handle_one_serial oid (.str ResolvedSerial) change =
        (c.heapSet r { c.heapGet r with p_changed := none, stateData := none }, none)) ∧
    (∀ r s, alook c.cache oid = some r → s ≠ ResolvedSerial →
      ((c.handle_one_serial oid (.str s) change).1.heapGet r).p_serial = some s ∧
      ((c.handle_one_serial oid (.str s) change).1.heapGet r).p_changed =
        (if change then some false else (c.heapGet r).p_changed) ∧
      (c.handle_one_serial oid (.str s) change).2 = none) := by
  refine ⟨fun e => rfl, ?_, ?_, ?_⟩
  · intro h s
    unfold Connection.handle_one_serial
    rw [h]
  · intro r h
    unfold Connection.handle_one_serial
    rw [h]
    simp
  · intro r s h hs
    unfold Connection.handle_one_serial
    simp only [h, if_neg hs]
    refine ⟨?_, ?_, trivial⟩
    · rw [heapGet_heapSet_self]
    · rw [heapGet_heapSet_self]
      cases change <;> simp

/-- C4 witness: the amended spec applied to a concrete connection, cache hit
and non-Resolved serial with `change = true`. -/
theorem C4_handle_one_serial_spec_witness :
    ((conn4.handle_one_serial 7 (.str 5) true).1.heapGet 0).p_serial = some 5 ∧
    ((conn4.handle_one_serial 7 (.str 5) true).1.heapGet 0).p_changed = some false :=
  have h := (C4_handle_one_serial_spec conn4 7 true).2.2.2 0 5 rfl (by decide)
  ⟨h.1, by simpa using h.2.1⟩

/-! Claim C3: `root()` on a fresh Connection and the load counter. -/

def stor3 : Storage :=
  { load := fun oid v => if oid = 0 ∧ v = 0 then some (42, 1) else none }

def conn3 : Connection := { storage := some (.real stor3) }

def conn3b : Connection :=
  { storage := some (.real stor3), nextRef := 1,
    heap := [(0, { p_oid := some 0, p_jar := .this, p_changed := none,
                   p_serial := some 1, stateData := none })],
    cache := [(0, 0)] }

/-- C3 counterexample: on a fresh Connection with an empty cache, `root()`
loads from storage and leaves a ghost for the zero oid with the returned
serial, but the load counter reported by `getTransferCounts` is then 0, not
1: `get` never increments `_load_count` (only `_setstate`, i.e. unghosting,
does). -/
theorem C3_counterexample :
    conn3.root = .ok (0, conn3b) ∧
    alook conn3b.cache z64 = some 0 ∧
    (conn3b.heapGet 0).p_serial = some 1 ∧
    (conn3b.heapGet 0).p_changed = none ∧
    ((conn3b.getTransferCounts false).1).1 = 0 ∧
    ((conn3b.getTransferCounts false).1).1 ≠ 1 := by
  refine ⟨rfl, rfl, rfl, rfl, rfl, ?_⟩
  decide

/-- C3 (amended): on a fresh Connection (empty cache, nothing added, zero
counters), `root()` loads `(p, serial)` for the zero oid from storage and
leaves a cached ghost for `z64` whose `_p_serial` equals the returned
serial — and the load counter reported by `getTransferCounts` remains 0,
because `get` does not increment `_load_count`. -/
theorem C3_root_fresh (c : Connection) (st : StoreSide) (p serial : Nat)
    (hst : c.storage = some st)
    (hcache : c.cache = [])
    (hadded : c.added = [])
    (hload : st.loadS z64 c.version = some (p, serial))
    (hcount : c.load_count = 0) :
    ∃ c1, c.root = .ok (c.nextRef, c1) ∧
      alook c1.cache z64 = some c.nextRef ∧
      (c1.heapGet c.nextRef).p_serial = some serial ∧
      (c1.heapGet c.nextRef).p_changed = none ∧
      (c1.heapGet c.nextRef).p_oid = some z64 ∧
      ((c1.getTransferCounts false).1).1 = 0 := by
  unfold Connection.root Connection.get
  rw [hst, hcache, hadded]
  simp only [alook_nil]
  rw [hload]
  refine ⟨_, rfl, ?_, ?_, ?_, ?_, ?_⟩
  · simp [alook_aset_self]
  · simp [Connection.heapGet, alook_aset_self]
  · simp [Connection.heapGet, alook_aset_self]
  · simp [Connection.heapGet, alook_aset_self]
  · simp [Connection.getTransferCounts, hcount]

/-- C3 witness: the amended root-load behaviour at the concrete fresh
connection. -/
theorem C3_root_fresh_witness :
    ∃ c1, conn3.root = .ok (conn3.nextRef, c1) ∧
      alook c1.cache z64 = some conn3.nextRef ∧
      (c1.heapGet conn3.nextRef).p_serial = some 1 ∧
      (c1.heapGet conn3.nextRef).p_changed = none ∧
      (c1.heapGet conn3.nextRef).p_oid = some z64 ∧
      ((c1.getTransferCounts false).1).1 = 0 :=
  C3_root_fresh conn3 (.real stor3) 42 1 rfl rfl rfl (by decide) rfl

/-! Claim C8: `get` lookup order and object identity. -/

/-- C8: `get(oid)` on an open Connection returns the cached object when the
oid is in the cache, else the object in `_added` if present, else loads
`(p, serial)` from storage at the current version, builds a ghost stamped
with `_p_oid = oid`, `_p_jar = this`, `_p_changed = ghost`,
`_p_serial = serial`, inserts it into the cache and returns it; and two
successive `get(oid)` calls return the same object reference, the second
leaving the state unchanged. -/
theorem C8_get_spec (c : Connection) (oid : Nat) :
    (c.storage = none → c.get oid = .error .runtimeClosed) ∧
    (∀ st r, c.storage = some st → alook c.cache oid = some r → c.get oid = .ok (r, c)) ∧
    (∀ st r, c.storage = some st → alook c.cache oid = none → alook c.added oid = some r →
      c.get oid = .ok (r, c)) ∧
    (∀ st p serial, c.storage = some st → alook c.cache oid = none →
      alook c.added oid = none → st.loadS oid c.version = some (p, serial) →
      ∃ c1, c.get oid = .ok (c.nextRef, c1) ∧
        alook c1.cache oid = some c.nextRef ∧
        c1.heapGet c.nextRef =
          { hasOidSlot := true, p_oid := some oid, p_jar := .this,
            p_changed := none, p_serial := some serial, stateData := none }) ∧
    (∀ r c1, c.get oid = .ok (r, c1) → c1.get oid = .ok (r, c1)) := by
  refine ⟨?_, ?_, ?_, ?_, ?_⟩
  · intro h
    unfold Connection.get
    rw [h]
  · intro st r hst hc
    unfold Connection.get
    rw [hst, hc]
  · intro st r hst hc ha
    unfold Connection.get
    rw [hst, hc, ha]
  · intro st p serial hst hc ha hl
    unfold Connection.get
    simp only [hst, hc, ha, hl]
    exact ⟨_, rfl, by simp [alook_aset_self], by
      simp [Connection.heapGet, alook_aset_self]⟩
  · intro r c1 h
    unfold Connection.get at h ⊢
    cases hst : c.storage with
    | none =>
      simp only [hst] at h
      exact Except.noConfusion h
    | some st =>
      simp only [hst] at h
      cases hc : alook c.cache oid with
      | some r0 =>
        simp only [hc] at h
        have h' := Except.ok.inj h
        have hr : r0 = r := congrArg Prod.fst h'
        have hc1 : c = c1 := congrArg Prod.snd h'
        subst hr; subst hc1
        simp only [hst, hc]
      | none =>
        simp only [hc] at h
        cases ha : alook c.added oid with
        | some r0 =>
          simp only [ha] at h
          have h' := Except.ok.inj h
          have hr : r0 = r := congrArg Prod.fst h'
          have hc1 : c = c1 := congrArg Prod.snd h'
          subst hr; subst hc1
          simp only [hst, hc, ha]
        | none =>
          simp only [ha] at h
          cases hl : st.loadS oid c.version with
          | none =>
            simp only [hl] at h
            exact Except.noConfusion h
          | some ps =>
            obtain ⟨p, serial⟩ := ps
            simp only [hl] at h
            have h' := Except.ok.inj h
            have hr : c.nextRef = r := congrArg Prod.fst h'
            have hc1 := congrArg Prod.snd h'
            subst hr
            subst hc1
            simp only [hst, alook_aset_self]

def stor8 : Storage :=
  { load := fun oid v => if oid = 3 ∧ v = 0 then some (50, 9) else none }

def conn8 : Connection := { storage := some (.real stor8) }

def conn8b : Connection :=
  { storage := some (.real stor8), nextRef := 1,
    heap := [(0, { p_oid := some 3, p_jar := .this, p_changed := none,
                   p_serial := some 9, stateData := none })],
    cache := [(3, 0)] }

/-- C8 witness: a concrete miss-then-hit pair of `get` calls returning the
same object reference. -/
theorem C8_get_spec_witness :
    conn8.get 3 = .ok (0, conn8b) ∧ conn8b.get 3 = .ok (0, conn8b) :=
  ⟨rfl, (C8_get_spec conn8 3).2.2.2.2 0 conn8b rfl⟩

/-! Claim C6: the MVCC fallback `_setstate_noncurrent`. -/

theorem setstate_noncurrent_found (c : Connection) (r oid : Nat) (st : StoreSide)
    (data start : Nat) (endTid : Option Nat)
    (hlb : st.loadBeforeS oid c.txn_time = .found data start endTid)
    (h1 : pyLtOpt start c.txn_time = true)
    (h2 : endCheck c.txn_time endTid = true) :
    c.setstate_noncurrent r oid st =
      .success ((match endTid with
         | none => c
         | some _ =>
             { c with noncurrent := setAdd c.noncurrent oid }).setGhostStateAt r data start) := by
  unfold Connection.setstate_noncurrent
  simp only [hlb, h1, h2]
  simp

theorem setstate_noncurrent_assertFail (c : Connection) (r oid : Nat) (st : StoreSide)
    (data start : Nat) (endTid : Option Nat)
    (hlb : st.loadBeforeS oid c.txn_time = .found data start endTid)
    (h : pyLtOpt start c.txn_time = false ∨ endCheck c.txn_time endTid = false) :
    c.setstate_noncurrent r oid st = .assertFail := by
  unfold Connection.setstate_noncurrent
  rcases h with h | h
  · simp only [hlb, h]
    simp
  · by_cases h1 : pyLtOpt start c.txn_time = true
    · simp only [hlb, h1, h]
      simp
    · rw [Bool.not_eq_true] at h1
      simp only [hlb, h1]
      simp

theorem setstate_noncurrent_failed (c : Connection) (r oid : Nat) (st : StoreSide)
    (hlb : st.loadBeforeS oid c.txn_time = .noneRes ∨
           st.loadBeforeS oid c.txn_time = .keyErr) :
    c.setstate_noncurrent r oid st = .failure := by
  unfold Connection.setstate_noncurrent
  rcases hlb with h | h <;> simp only [h]

theorem load_before_of_success (c c1 : Connection) (r oid : Nat) (st : StoreSide)
    (hm : c.mvcc = true)
    (h : c.setstate_noncurrent r oid st = .success c1) :
    c.load_before_or_conflict r oid st = (c1, none) := by
  unfold Connection.load_before_or_conflict
  simp only [hm, if_true, h]

theorem load_before_of_assertFail (c : Connection) (r oid : Nat) (st : StoreSide)
    (hm : c.mvcc = true)
    (h : c.setstate_noncurrent r oid st = .assertFail) :
    c.load_before_or_conflict r oid st = (c, some .assertionError) := by
  unfold Connection.load_before_or_conflict
  simp only [hm, if_true, h]

theorem load_before_of_failure (c : Connection) (r oid : Nat) (st : StoreSide)
    (hm : c.mvcc = true)
    (h : c.setstate_noncurrent r oid st = .failure) :
    c.load_before_or_conflict r oid st =
      ({ c with txnRegistered := c.txnRegistered ++ [r],
                conflicts := setAdd c.conflicts oid }, some (.readConflict oid)) := by
  unfold Connection.load_before_or_conflict
  simp only [hm, if_true, h]

/-- C6: when `loadBefore(oid, txn_time)` returns `(data, start, end)`
satisfying the asserted bounds `start < txn_time` and (`end` is none or
`txn_time ≤ end`), the fallback succeeds, records the oid in `noncurrent`
exactly when `end` is defined, installs `data` into the ghost and sets
`_p_serial = start`; when a bound fails the assert raises; and when
`loadBefore` returns `None` or the oid is unknown (`KeyError`), the fallback
fails and `_load_before_or_conflict` escalates to `ReadConflictError`. -/
theorem C6_mvcc_fallback (c : Connection) (r oid : Nat) (st : StoreSide) (t : Nat)
    (hm : c.mvcc = true) (ht : c.txn_time = some t) :
    (∀ data start endTid, st.loadBeforeS oid c.txn_time = .found data start endTid →
      start < t → (∀ e, endTid = some e → t ≤ e) →
      ∃ c1, c.load_before_or_conflict r oid st = (c1, none) ∧
        (endTid ≠ none → oid ∈ c1.noncurrent) ∧
        (endTid = none → c1.noncurrent = c.noncurrent) ∧
        (c1.heapGet r).stateData = some data ∧
        (c1.heapGet r).p_serial = some start ∧
        c1.conflicts = c.conflicts) ∧
    (∀ data start endTid, st.loadBeforeS oid c.txn_time = .found data start endTid →
      (¬ start < t ∨ ∃ e, endTid = some e ∧ ¬ t ≤ e) →
      c.load_before_or_conflict r oid st = (c, some .assertionError)) ∧
    (st.loadBeforeS oid c.txn_time = .noneRes ∨ st.loadBeforeS oid c.txn_time = .keyErr →
      c.load_before_or_conflict r oid st =
        ({ c with txnRegistered := c.txnRegistered ++ [r],
                  conflicts := setAdd c.conflicts oid }, some (.readConflict oid))) := by
  refine ⟨?_, ?_, ?_⟩
  · intro data start endTid hlb hlt hle
    have h1 : pyLtOpt start c.txn_time = true := by rw [ht]; simp [pyLtOpt, hlt]
    have h2 : endCheck c.txn_time endTid = true := by
      cases endTid with
      | none => rfl
      | some e =>
        have := hle e rfl
        rw [ht]
        simp [endCheck, pyLeOpt, this]
    have hsucc := setstate_noncurrent_found c r oid st data start endTid hlb h1 h2
    have hres := load_before_of_success c _ r oid st hm hsucc
    refine ⟨_, hres, ?_, ?_, ?_, ?_, ?_⟩
    · intro hne
      cases endTid with
      | none => exact absurd rfl hne
      | some e =>
        simp only [Connection.setGhostStateAt, Connection.heapSet]
        exact mem_setAdd_self c.noncurrent oid
    · intro he
      subst he
      rfl
    · cases endTid <;>
        simp only [Connection.setGhostStateAt, heapGet_heapSet_self]
    · cases endTid <;>
        simp only [Connection.setGhostStateAt, heapGet_heapSet_self]
    · cases endTid <;> rfl
  · intro data start endTid hlb hbad
    by_cases h1 : start < t
    · rcases hbad with h | ⟨e, he, hne⟩
      · exact absurd h1 h
      · subst he
        have h2 : endCheck c.txn_time (some e) = false := by
          rw [ht]; simp [endCheck, pyLeOpt, hne]
        exact load_before_of_assertFail c r oid st hm
          (setstate_noncurrent_assertFail c r oid st data start (some e) hlb (Or.inr h2))
    · have h1t : pyLtOpt start c.txn_time = false := by rw [ht]; simp [pyLtOpt, h1]
      exact load_before_of_assertFail c r oid st hm
        (setstate_noncurrent_assertFail c r oid st data start endTid hlb (Or.inl h1t))
  · intro hlb
    exact load_before_of_failure c r oid st hm (setstate_noncurrent_failed c r oid st hlb)

def stor6 : Storage :=
  { loadBefore := fun oid t =>
      if oid = 7 ∧ t = some 8 then .found 40 6 (some 8) else .noneRes }

def conn6 : Connection :=
  { storage := some (.real stor6), mvcc := true, txn_time := some 8,
    invalidated := [7],
    heap := [(1, { p_oid := some 7, p_jar := .this })] }

/-- C6 witness: a concrete MVCC fallback succeeding with a defined `end`,
recording the oid as noncurrent. -/
theorem C6_mvcc_fallback_witness :
    ∃ c1, conn6.load_before_or_conflict 1 7 (.real stor6) = (c1, none) ∧
      (some 8 ≠ (none : Option Nat) → 7 ∈ c1.noncurrent) ∧
      (some 8 = (none : Option Nat) → c1.noncurrent = conn6.noncurrent) ∧
      (c1.heapGet 1).stateData = some 40 ∧
      (c1.heapGet 1).p_serial = some 6 ∧
      c1.conflicts = conn6.conflicts :=
  (C6_mvcc_fallback conn6 1 7 (.real stor6) 8 rfl rfl).1 40 6 (some 8) rfl (by decide)
    (fun e he => by cases he; decide)

/-! Claim C1: the conflict check inside the commit write-walk. -/

theorem commit_step_absorb (o : Bool) :
    ∀ (l : List Nat) (c : Connection) (e : PyErr),
      List.foldl (Connection.commit_step o) (c, some e) l = (c, some e) := by
  intro l
  induction l with
  | nil => intro c e; rfl
  | cons b t ih => intro c e; exact ih c e

theorem commit_walk_append (o : Bool) (c : Connection) (l1 l2 : List Nat) :
    Connection.commit_walk o c (l1 ++ l2) =
      (match Connection.commit_walk o c l1 with
       | (c1, none) => Connection.commit_walk o c1 l2
       | (c1, some e) => (c1, some e)) := by
  unfold Connection.commit_walk
  rw [List.foldl_append]
  cases hacc : List.foldl (Connection.commit_step o) (c, none) l1 with
  | mk c1 err =>
    cases err with
    | none => rfl
    | some e => exact commit_step_absorb o l2 c1 e

/-- The walked object hits the modified-branch conflict check: a non-new
serial, an invalidated oid and no capability on the initially committed
object raise `ConflictError` with no state change. -/
theorem commit_one_conflict (c : Connection) (s oid n : Nat)
    (hoid : (c.heapGet s).p_oid = some oid)
    (hser : (c.heapGet s).p_serial = some n)
    (hn : n ≠ z64)
    (hinv : oid ∈ c.invalidated) :
    Connection.commit_one false c s = (c, some (.conflictErr oid)) := by
  unfold Connection.commit_one
  simp only [hoid, hser]
  have hnew : ¬ (some n = some z64 ∨ (some n : Option Nat) = none) := by
    simp [hn]
  rw [if_neg hnew]
  rw [if_pos ⟨hinv, by simp⟩]

def stor1 : Storage := {}

def conn1 : Connection :=
  { storage := some (.real stor1),
    invalidated := [7],
    txn_time := some 8,
    heap := [(0, { p_oid := some 1, p_jar := .this, p_changed := some true,
                   p_serial := some 9, hasResolveConflict := true, stateData := some 3 }),
             (1, { p_oid := some 7, p_jar := .this, p_changed := some true,
                   p_serial := some 5, hasResolveConflict := false, stateData := some 4 })] }

/-- C1 counterexample: the walked object at oid 7 has a non-new serial, its
oid is in `invalidated` and it lacks `_p_resolveConflict`, yet `commit`
completes without raising: the walk's capability check
`hasattr(object, "_p_resolveConflict")` consults the initially committed
object (which has the capability), not the walked one. -/
theorem C1_counterexample :
    (conn1.heapGet 1).p_oid = some 7 ∧
    7 ∈ conn1.invalidated ∧
    (conn1.heapGet 1).hasResolveConflict = false ∧
    (conn1.heapGet 1).p_serial = some 5 ∧
    (conn1.commit 0 [0, 1]).2 = none := by
  refine ⟨rfl, ?_, rfl, rfl, ?_⟩ <;> decide

/-- C1 (amended): in commit's write-walk the per-object conflict check tests
the walked object's oid against `invalidated` but consults the
`_p_resolveConflict` capability of the *initially committed* object: when
the walk reaches (with no prior error) a walked object whose serial is
neither `z64` nor none and whose oid is invalidated, while the initially
committed object (classified modified) lacks the capability, `commit` raises
`ConflictError`. -/
theorem C1_walk_conflict_uses_outer (c cc : Connection) (r s : Nat)
    (pre rest : List Nat) (oidr oid n : Nat)
    (hoid : (c.heapGet r).p_oid = some oidr)
    (hnc : oidr ∉ c.conflicts)
    (hjar : (c.heapGet r).p_jar = .this)
    (hch : (c.heapGet r).p_changed = some true)
    (hninv : oidr ∉ c.invalidated)
    (hnadd : alook c.added oidr = none)
    (hres : (c.heapGet r).hasResolveConflict = false)
    (hpre : Connection.commit_walk false
      { c with modified := c.modified ++ [oidr] } pre = (cc, none))
    (hsoid : (cc.heapGet s).p_oid = some oid)
    (hser : (cc.heapGet s).p_serial = some n)
    (hn0 : n ≠ z64)
    (hinv : oid ∈ cc.invalidated) :
    c.commit r (pre ++ s :: rest) = (cc, some (.conflictErr oid)) := by
  unfold Connection.commit
  simp only [hoid, hjar, hch, hnadd, hres]
  rw [if_neg (by simp [hnc])]
  rw [if_neg (by simp)]
  rw [Option.isSome_none, if_neg (by simp)]
  rw [if_pos trivial]
  rw [if_neg (by simp [hninv])]
  have heq : (s :: rest : List Nat) = [s] ++ rest := rfl
  rw [heq, ← List.append_assoc, commit_walk_append, commit_walk_append]
  rw [hpre]
  have hone := commit_one_conflict cc s oid n hsoid hser hn0 hinv
  have h1 : Connection.commit_walk false cc [s] = (cc, some (.conflictErr oid)) := by
    unfold Connection.commit_walk
    simp only [List.foldl_cons, List.foldl_nil]
    exact hone
  show (match Connection.commit_walk false cc [s] with
        | (c1, none) => Connection.commit_walk false c1 rest
        | (c1, some e) => (c1, some e)) = (cc, some (.conflictErr oid))
  rw [h1]

def conn1w : Connection :=
  { storage := some (.real stor1),
    invalidated := [7],
    txn_time := some 8,
    heap := [(0, { p_oid := some 1, p_jar := .this, p_changed := some true,
                   p_serial := some 9, hasResolveConflict := false, stateData := some 3 }),
             (1, { p_oid := some 7, p_jar := .this, p_changed := some true,
                   p_serial := some 5, hasResolveConflict := false, stateData := some 4 })] }

/-- C1 witness: a concrete commit whose walk raises `ConflictError` for the
invalidated walked object when the committed object lacks the capability. -/
theorem C1_walk_conflict_uses_outer_witness :
    conn1w.commit 0 ([] ++ 1 :: []) =
      ({ conn1w with modified := conn1w.modified ++ [1] }, some (.conflictErr 7)) :=
  C1_walk_conflict_uses_outer conn1w
    { conn1w with modified := conn1w.modified ++ [1] } 0 1 [] [] 1 7 5
    rfl (by decide) rfl rfl (by decide) rfl rfl rfl rfl rfl (by decide) (by decide)

/-! Field lemmas for the operations that do touch the control fields. -/

theorem invalidate_conflicts (c : Connection) (tid : Nat) (oids : List Nat) :
    (c.invalidate tid oids).conflicts = c.conflicts := by
  unfold Connection.invalidate
  dsimp only
  split <;> rfl

theorem invalidate_noncurrent (c : Connection) (tid : Nat) (oids : List Nat) :
    (c.invalidate tid oids).noncurrent = c.noncurrent := by
  unfold Connection.invalidate
  dsimp only
  split <;> rfl

theorem invalidate_txn_ne (c : Connection) (tid : Nat) (oids : List Nat) :
    (c.invalidate tid oids).txn_time ≠ none := by
  unfold Connection.invalidate
  dsimp only
  split
  · exact fun h => Option.noConfusion h
  · next h => exact h

theorem flush_err (c c3 : Connection) (e : PyErr)
    (h : c.flush_invalidations = (c3, some e)) : c3 = c := by
  unfold Connection.flush_invalidations at h
  split at h
  · exact Option.noConfusion (congrArg Prod.snd h)
  · exact (congrArg Prod.fst h).symm

theorem flush_ok (c c3 : Connection)
    (h : c.flush_invalidations = (c3, none)) :
    c3.invalidated = [] ∧ c3.noncurrent = [] ∧ c3.txn_time = none ∧
    c3.conflicts = c.conflicts := by
  unfold Connection.flush_invalidations at h
  split at h
  · have h3 := congrArg Prod.fst h
    subst h3
    exact ⟨rfl, rfl, rfl, (ctl_cacheInvalidateList c _).1⟩
  · exact Option.noConfusion (congrArg Prod.snd h)

theorem flush_fields (c : Connection) :
    ((c.flush_invalidations).1.invalidated = [] ∧ (c.flush_invalidations).1.noncurrent = [] ∧
     (c.flush_invalidations).1.txn_time = none ∧
     (c.flush_invalidations).1.conflicts = c.conflicts) ∨
    (c.flush_invalidations).1 = c := by
  rcases hf : c.flush_invalidations with ⟨c3, e⟩
  cases e with
  | none => exact Or.inl (flush_ok c c3 hf)
  | some e => exact Or.inr (flush_err c c3 e hf)

theorem flush_conflicts (c : Connection) :
    (c.flush_invalidations).1.conflicts = c.conflicts := by
  rcases flush_fields c with ⟨_, _, _, h⟩ | h
  · exact h
  · rw [h]

theorem flush_fields_of (c c2 : Connection)
    (h1 : c2.invalidated = c.invalidated) (h2 : c2.noncurrent = c.noncurrent)
    (h3 : c2.txn_time = c.txn_time) :
    ((c2.flush_invalidations).1.invalidated = [] ∧ (c2.flush_invalidations).1.noncurrent = [] ∧
     (c2.flush_invalidations).1.txn_time = none) ∨
    ((c2.flush_invalidations).1.invalidated = c.invalidated ∧
     (c2.flush_invalidations).1.noncurrent = c.noncurrent ∧
     (c2.flush_invalidations).1.txn_time = c.txn_time) := by
  rcases flush_fields c2 with ⟨hi, hn, ht, _⟩ | heq
  · exact Or.inl ⟨hi, hn, ht⟩
  · rw [heq]
    exact Or.inr ⟨h1, h2, h3⟩

theorem tpc_abort_fields (c : Connection) :
    ((c.tpc_abort).1.invalidated = [] ∧ (c.tpc_abort).1.noncurrent = [] ∧
     (c.tpc_abort).1.txn_time = none) ∨
    ((c.tpc_abort).1.invalidated = c.invalidated ∧ (c.tpc_abort).1.noncurrent = c.noncurrent ∧
     (c.tpc_abort).1.txn_time = c.txn_time ∧ (c.tpc_abort).1.conflicts = c.conflicts) := by
  unfold Connection.tpc_abort
  dsimp only
  have hctl : CtlEq c
      (Connection.cacheInvalidateList { c with importPending := false } c.modified) :=
    ctlEq_trans ⟨rfl, rfl, rfl, rfl⟩ (ctl_cacheInvalidateList _ _)
  rcases hs : (Connection.cacheInvalidateList { c with importPending := false }
      c.modified).flush_invalidations with ⟨c3, e⟩
  cases e with
  | some e =>
    dsimp only
    have h3 := flush_err _ _ _ hs
    right
    rw [h3]
    exact ⟨hctl.2.1, hctl.2.2.2, hctl.2.2.1, hctl.1⟩
  | none =>
    dsimp only
    left
    have hok := flush_ok _ _ hs
    have hrest : CtlEq ({ c3 with conflicts := [] } : Connection)
        ((({ c3 with conflicts := [] } : Connection).invalidate_creating).drain_added) :=
      ctlEq_trans (ctl_invalidate_creating _) (ctl_drain_added _)
    refine ⟨?_, ?_, ?_⟩
    · rw [hrest.2.1]; exact hok.1
    · rw [hrest.2.2.2]; exact hok.2.1
    · rw [hrest.2.2.1]; exact hok.2.2.1

theorem tpc_abort_conflicts (c : Connection) (oid : Nat)
    (h : oid ∈ (c.tpc_abort).1.conflicts) : oid ∈ c.conflicts := by
  unfold Connection.tpc_abort at h
  dsimp only at h
  rcases hs : (Connection.cacheInvalidateList { c with importPending := false }
      c.modified).flush_invalidations with ⟨c3, e⟩
  rw [hs] at h
  cases e with
  | some e =>
    dsimp only at h
    have h3 := flush_err _ _ _ hs
    rw [h3] at h
    have hctl : CtlEq c
        (Connection.cacheInvalidateList { c with importPending := false } c.modified) :=
      ctlEq_trans ⟨rfl, rfl, rfl, rfl⟩ (ctl_cacheInvalidateList _ _)
    rwa [hctl.1] at h
  | none =>
    dsimp only at h
    have hrest : CtlEq ({ c3 with conflicts := [] } : Connection)
        ((({ c3 with conflicts := [] } : Connection).invalidate_creating).drain_added) :=
      ctlEq_trans (ctl_invalidate_creating _) (ctl_drain_added _)
    rw [hrest.1] at h
    exact absurd h (List.not_mem_nil oid)

theorem tpc_finish_fields (c : Connection) :
    ((c.tpc_finish).1.invalidated = [] ∧ (c.tpc_finish).1.noncurrent = [] ∧
     (c.tpc_finish).1.txn_time = none) ∨
    ((c.tpc_finish).1.invalidated = c.invalidated ∧
     (c.tpc_finish).1.noncurrent = c.noncurrent ∧
     (c.tpc_finish).1.txn_time = c.txn_time) := by
  unfold Connection.tpc_finish
  dsimp only
  split
  · split
    · exact flush_fields_of c _ rfl rfl rfl
    · exact flush_fields_of c _ rfl rfl rfl
  · exact flush_fields_of c _ rfl rfl rfl

theorem sync_fields (c : Connection) :
    (c.sync).1.conflicts = c.conflicts ∧
    (((c.sync).1.invalidated = [] ∧ (c.sync).1.noncurrent = [] ∧
      (c.sync).1.txn_time = none) ∨
     ((c.sync).1.invalidated = c.invalidated ∧ (c.sync).1.noncurrent = c.noncurrent ∧
      (c.sync).1.txn_time = c.txn_time)) := by
  unfold Connection.sync
  dsimp only
  have hfold := foldl_pres_res Connection.abort_step (CtlEq c)
    (fun acc b h => by
      obtain ⟨cc, e⟩ := acc
      cases e with
      | some e => exact h
      | none =>
        dsimp only [Connection.abort_step]
        exact ctlEq_trans h (ctl_abortObj cc b))
    c.txnRegistered ({ c with txnRegistered := [] }, none) ⟨rfl, rfl, rfl, rfl⟩
  rcases hs : List.foldl Connection.abort_step
      ({ c with txnRegistered := [] }, none) c.txnRegistered with ⟨c1, e⟩
  rw [hs] at hfold
  cases e with
  | some e =>
    dsimp only
    exact ⟨hfold.1, Or.inr ⟨hfold.2.1, hfold.2.2.2, hfold.2.2.1⟩⟩
  | none =>
    dsimp only
    constructor
    · rw [flush_conflicts c1]
      exact hfold.1
    · rcases flush_fields_of c1 c1 rfl rfl rfl with h | h
      · exact Or.inl h
      · exact Or.inr ⟨h.1.trans hfold.2.1, h.2.1.trans hfold.2.2.2, h.2.2.trans hfold.2.2.1⟩

theorem sn_success_fields (c : Connection) (r oid : Nat) (st : StoreSide) :
    ∀ c1, c.setstate_noncurrent r oid st = .success c1 →
      c1.txn_time = c.txn_time ∧ c1.invalidated = c.invalidated ∧
      c1.conflicts = c.conflicts ∧
      (c1.noncurrent = c.noncurrent ∨ c1.noncurrent = setAdd c.noncurrent oid) := by
  intro c1 h
  unfold Connection.setstate_noncurrent at h
  split at h
  · exact NCRes.noConfusion h
  · exact NCRes.noConfusion h
  · split at h
    · exact NCRes.noConfusion h
    · split at h
      · exact NCRes.noConfusion h
      · have he := NCRes.success.inj h
        subst he
        split
        · exact ⟨rfl, rfl, rfl, Or.inl rfl⟩
        · exact ⟨rfl, rfl, rfl, Or.inr rfl⟩

theorem lb_ctl_facts (c : Connection) (r oid : Nat) (st : StoreSide) :
    (c.load_before_or_conflict r oid st).1.txn_time = c.txn_time ∧
    (c.load_before_or_conflict r oid st).1.invalidated = c.invalidated ∧
    (∀ x, x ∈ c.conflicts → x ∈ (c.load_before_or_conflict r oid st).1.conflicts) ∧
    ((c.load_before_or_conflict r oid st).1.noncurrent = c.noncurrent ∨
     (c.load_before_or_conflict r oid st).1.noncurrent = setAdd c.noncurrent oid) := by
  unfold Connection.load_before_or_conflict
  split
  · cases hsn : c.setstate_noncurrent r oid st with
    | success c1 =>
      dsimp only
      obtain ⟨ht, hi, hc, hn⟩ := sn_success_fields c r oid st c1 hsn
      exact ⟨ht, hi, fun x hx => by rw [hc]; exact hx, hn⟩
    | failure =>
      dsimp only
      exact ⟨rfl, rfl, fun x hx => mem_setAdd_of_mem _ _ _ hx, Or.inl rfl⟩
    | assertFail =>
      dsimp only
      exact ⟨rfl, rfl, fun x hx => hx, Or.inl rfl⟩
  · exact ⟨rfl, rfl, fun x hx => mem_setAdd_of_mem _ _ _ hx, Or.inl rfl⟩

theorem setstate_facts (c : Connection) (r : Nat) :
    (c.setstate r).1.txn_time = c.txn_time ∧
    (∀ x, x ∈ (c.setstate r).1.invalidated → x ∈ c.invalidated) ∧
    (∀ x, x ∈ c.conflicts → x ∈ (c.setstate r).1.conflicts) ∧
    ((c.setstate r).1.noncurrent ≠ c.noncurrent → c.invalidated ≠ []) := by
  unfold Connection.setstate
  split
  · exact ⟨rfl, fun x hx => hx, fun x hx => hx, fun hne => absurd rfl hne⟩
  · split
    · exact ⟨rfl, fun x hx => hx, fun x hx => hx, fun hne => absurd rfl hne⟩
    · split
      · next hguard =>
        obtain ⟨ht, hi, hcm, _⟩ := lb_ctl_facts c r _ _
        exact ⟨ht, fun x hx => by rw [hi] at hx; exact hx, hcm,
               fun _ => List.ne_nil_of_mem hguard.1⟩
      · split
        · exact ⟨rfl, fun x hx => hx, fun x hx => hx, fun hne => absurd rfl hne⟩
        · dsimp only
          split
          · next hinv2 =>
            split
            · split
              · refine ⟨rfl, fun x hx => ?_, fun x hx => hx,
                       fun _ => List.ne_nil_of_mem hinv2⟩
                exact (List.mem_filter.mp hx).1
              · exact ⟨rfl, fun x hx => hx, fun x hx => hx,
                       fun _ => List.ne_nil_of_mem hinv2⟩
            · obtain ⟨ht, hi, hcm, _⟩ := lb_ctl_facts _ r _ _
              exact ⟨ht, fun x hx => by rw [hi] at hx; exact hx, hcm,
                     fun _ => List.ne_nil_of_mem hinv2⟩
          · exact ⟨rfl, fun x hx => hx, fun x hx => hx, fun hne => absurd rfl hne⟩

theorem setDB_fields (c : Connection) (db : DB) (m : Bool) :
    (c.setDB db m).1.conflicts = c.conflicts ∧
    (((c.setDB db m).1.invalidated = [] ∧ (c.setDB db m).1.noncurrent = [] ∧
      (c.setDB db m).1.txn_time = none) ∨
     ((c.setDB db m).1.invalidated = [] ∧ (c.setDB db m).1.noncurrent = c.noncurrent ∧
      (c.setDB db m).1.txn_time = c.txn_time) ∨
     ((c.setDB db m).1.invalidated = c.invalidated ∧
      (c.setDB db m).1.noncurrent = c.noncurrent ∧
      (c.setDB db m).1.txn_time = c.txn_time)) := by
  unfold Connection.setDB Connection.resetCache
  dsimp only
  split
  · exact ⟨rfl, Or.inr (Or.inl ⟨rfl, rfl, rfl⟩)⟩
  · constructor
    · exact flush_conflicts _
    · rcases flush_fields_of c
          { c with db := some db, storage := some (.real db.storageS) } rfl rfl rfl with h | h
      · exact Or.inl h
      · exact Or.inr (Or.inr h)

/-! Claim C5: sticky read conflicts. -/

/-- C5: read conflicts are sticky for the duration of a transaction: once an
oid is recorded in `conflicts`, any subsequent `commit` of an object with
that oid re-registers the object with the transaction and raises
`ReadConflictError`; and across every operation, an oid can leave the
`conflicts` set only through `tpc_finish` or `tpc_abort`. -/
theorem C5_conflicts_sticky :
    (∀ (c : Connection) (r oid : Nat) (walk : List Nat),
      (c.heapGet r).p_oid = some oid → oid ∈ c.conflicts →
      c.commit r walk =
        ({ c with txnRegistered := c.txnRegistered ++ [r] }, some (.readConflict oid))) ∧
    (∀ (op : Op) (c : Connection) (oid : Nat),
      oid ∈ c.conflicts → oid ∉ (applyOp op c).1.conflicts →
      op = .opTpcFinish ∨ op = .opTpcAbort) := by
  constructor
  · intro c r oid walk hoid hc
    unfold Connection.commit
    dsimp only
    simp only [hoid]
    rw [if_pos (by simp [hc])]
    rfl
  · intro op c oid hin hout
    cases op with
    | opInvalidate tid oids =>
      have h' : oid ∉ (c.invalidate tid oids).conflicts := hout
      rw [invalidate_conflicts] at h'
      exact absurd hin h'
    | opSetstate r => exact absurd ((setstate_facts c r).2.2.1 oid hin) hout
    | opCommit r w =>
      have h' : oid ∉ (c.commit r w).1.conflicts := hout
      rw [(ctl_commit c r w).1] at h'
      exact absurd hin h'
    | opTpcBegin s =>
      have h' : oid ∉ (c.tpc_begin s).conflicts := hout
      rw [(ctl_tpc_begin c s).1] at h'
      exact absurd hin h'
    | opTpcVote =>
      have h' : oid ∉ (c.tpc_vote).1.conflicts := hout
      rw [(ctl_tpc_vote c).1] at h'
      exact absurd hin h'
    | opTpcFinish => exact Or.inl rfl
    | opTpcAbort => exact Or.inr rfl
    | opCommitSub =>
      have h' : oid ∉ (c.commit_sub).1.conflicts := hout
      rw [(ctl_commit_sub c).1] at h'
      exact absurd hin h'
    | opAbortSub =>
      have h' : oid ∉ (c.abort_sub).1.conflicts := hout
      rw [(ctl_abort_sub c).1] at h'
      exact absurd hin h'
    | opSync =>
      have h' : oid ∉ (c.sync).1.conflicts := hout
      rw [(sync_fields c).1] at h'
      exact absurd hin h'
    | opAbortObj r =>
      have h' : oid ∉ (c.abortObj r).1.conflicts := hout
      rw [(ctl_abortObj c r).1] at h'
      exact absurd hin h'
    | opClose => exact absurd hin hout
    | opAdd r =>
      cases h : c.add r with
      | ok c1 =>
        have h' : oid ∉ c1.conflicts := by
          have : (applyOp (.opAdd r) c).1 = c1 := by
            simp only [applyOp, h]
          rw [this] at hout
          exact hout
        rw [(ctl_add c r c1 h).1] at h'
        exact absurd hin h'
      | error e =>
        have h' : oid ∉ c.conflicts := by
          have : (applyOp (.opAdd r) c).1 = c := by
            simp only [applyOp, h]
          rw [this] at hout
          exact hout
        exact absurd hin h'
    | opGet o =>
      cases h : c.get o with
      | ok pr =>
        obtain ⟨r0, c1⟩ := pr
        have h' : oid ∉ c1.conflicts := by
          have : (applyOp (.opGet o) c).1 = c1 := by
            simp only [applyOp, h]
          rw [this] at hout
          exact hout
        rw [(ctl_get c o r0 c1 h).1] at h'
        exact absurd hin h'
      | error e =>
        have h' : oid ∉ c.conflicts := by
          have : (applyOp (.opGet o) c).1 = c := by
            simp only [applyOp, h]
          rw [this] at hout
          exact hout
        exact absurd hin h'
    | opSetDB db m =>
      have h' : oid ∉ (c.setDB db m).1.conflicts := hout
      rw [(setDB_fields c db m).1] at h'
      exact absurd hin h'

def conn5 : Connection :=
  { conflicts := [4],
    heap := [(0, { p_oid := some 4, p_jar := .this, p_changed := some true })] }

/-- C5 witness: a concrete conflicted commit re-raising `ReadConflictError`,
and a conflicts-removing operation being `tpc_finish`. -/
theorem C5_conflicts_sticky_witness :
    conn5.commit 0 [0] =
      ({ conn5 with txnRegistered := conn5.txnRegistered ++ [0] },
       some (.readConflict 4)) ∧
    (Op.opTpcFinish = .opTpcFinish ∨ Op.opTpcFinish = .opTpcAbort) :=
  ⟨C5_conflicts_sticky.1 conn5 0 4 [0] rfl (by decide),
   C5_conflicts_sticky.2 .opTpcFinish conn5 4 (by decide) (by decide)⟩

/-! Claim C2: the txn_time / invalidated / noncurrent discipline. -/

/-- Invariant: whenever `invalidated` is nonempty, `txn_time` is set (it was
set by the `invalidate` that first populated `invalidated`). -/
def InvTxn (c : Connection) : Prop := c.invalidated ≠ [] → c.txn_time ≠ none

theorem invTxn_of_ctl {c x : Connection} (hc : CtlEq c x) (h : InvTxn c) : InvTxn x := by
  intro hne
  rw [hc.2.1] at hne
  rw [hc.2.2.1]
  exact h hne

theorem invTxn_of_fields {c x : Connection}
    (hf : (x.invalidated = [] ∧ x.noncurrent = [] ∧ x.txn_time = none) ∨
          (x.invalidated = c.invalidated ∧ x.noncurrent = c.noncurrent ∧
           x.txn_time = c.txn_time))
    (h : InvTxn c) : InvTxn x := by
  rcases hf with ⟨hi, _, _⟩ | ⟨hi, _, ht⟩
  · intro hne; exact absurd hi hne
  · intro hne; rw [hi] at hne; rw [ht]; exact h hne

theorem invTxn_step (op : Op) (c : Connection) (h : InvTxn c) :
    InvTxn (applyOp op c).1 := by
  cases op with
  | opInvalidate tid oids =>
    intro _
    exact invalidate_txn_ne c tid oids
  | opSetstate r =>
    show InvTxn (c.setstate r).1
    intro hne
    obtain ⟨x, hx⟩ := List.exists_mem_of_ne_nil _ hne
    have hxc := (setstate_facts c r).2.1 x hx
    rw [(setstate_facts c r).1]
    exact h (List.ne_nil_of_mem hxc)
  | opCommit r w => exact invTxn_of_ctl (ctl_commit c r w) h
  | opTpcBegin s => exact invTxn_of_ctl (ctl_tpc_begin c s) h
  | opTpcVote => exact invTxn_of_ctl (ctl_tpc_vote c) h
  | opTpcFinish => exact invTxn_of_fields (tpc_finish_fields c) h
  | opTpcAbort =>
    refine invTxn_of_fields ?_ h
    rcases tpc_abort_fields c with ⟨hi, hn, ht⟩ | ⟨hi, hn, ht, _⟩
    · exact Or.inl ⟨hi, hn, ht⟩
    · exact Or.inr ⟨hi, hn, ht⟩
  | opCommitSub => exact invTxn_of_ctl (ctl_commit_sub c) h
  | opAbortSub => exact invTxn_of_ctl (ctl_abort_sub c) h
  | opSync => exact invTxn_of_fields (sync_fields c).2 h
  | opAbortObj r => exact invTxn_of_ctl (ctl_abortObj c r) h
  | opClose => exact invTxn_of_ctl (ctl_close c) h
  | opAdd r =>
    cases hadd : c.add r with
    | ok c1 =>
      have heq : (applyOp (.opAdd r) c).1 = c1 := by simp only [applyOp, hadd]
      rw [heq]
      exact invTxn_of_ctl (ctl_add c r c1 hadd) h
    | error e =>
      have heq : (applyOp (.opAdd r) c).1 = c := by simp only [applyOp, hadd]
      rw [heq]
      exact h
  | opGet o =>
    cases hget : c.get o with
    | ok pr =>
      obtain ⟨r0, c1⟩ := pr
      have heq : (applyOp (.opGet o) c).1 = c1 := by simp only [applyOp, hget]
      rw [heq]
      exact invTxn_of_ctl (ctl_get c o r0 c1 hget) h
    | error e =>
      have heq : (applyOp (.opGet o) c).1 = c := by simp only [applyOp, hget]
      rw [heq]
      exact h
  | opSetDB db m =>
    show InvTxn (c.setDB db m).1
    rcases (setDB_fields c db m).2 with ⟨hi, _, _⟩ | ⟨hi, _, _⟩ | ⟨hi, _, ht⟩
    · intro hne; exact absurd hi hne
    · intro hne; exact absurd hi hne
    · intro hne; rw [hi] at hne; rw [ht]; exact h hne

theorem reachable_invTxn (c : Connection) (h : Reachable c) : InvTxn c := by
  induction h with
  | init v m => intro hne; exact absurd rfl hne
  | step c op hr ih => exact invTxn_step op c ih

theorem noncurrent_growth (op : Op) (c : Connection) (hInv : InvTxn c) :
    ∀ x, x ∈ (applyOp op c).1.noncurrent → x ∉ c.noncurrent → c.txn_time ≠ none := by
  cases op with
  | opInvalidate tid oids =>
    intro x hx hnx
    have hx' : x ∈ (c.invalidate tid oids).noncurrent := hx
    rw [invalidate_noncurrent] at hx'
    exact absurd hx' hnx
  | opSetstate r =>
    intro x hx hnx
    have hx' : x ∈ (c.setstate r).1.noncurrent := hx
    by_cases heq : (c.setstate r).1.noncurrent = c.noncurrent
    · rw [heq] at hx'
      exact absurd hx' hnx
    · exact hInv ((setstate_facts c r).2.2.2 heq)
  | opCommit r w =>
    intro x hx hnx
    have hx' : x ∈ (c.commit r w).1.noncurrent := hx
    rw [(ctl_commit c r w).2.2.2] at hx'
    exact absurd hx' hnx
  | opTpcBegin s =>
    intro x hx hnx
    have hx' : x ∈ (c.tpc_begin s).noncurrent := hx
    rw [(ctl_tpc_begin c s).2.2.2] at hx'
    exact absurd hx' hnx
  | opTpcVote =>
    intro x hx hnx
    have hx' : x ∈ (c.tpc_vote).1.noncurrent := hx
    rw [(ctl_tpc_vote c).2.2.2] at hx'
    exact absurd hx' hnx
  | opTpcFinish =>
    intro x hx hnx
    have hx' : x ∈ (c.tpc_finish).1.noncurrent := hx
    rcases tpc_finish_fields c with ⟨_, hn, _⟩ | ⟨_, hn, _⟩
    · rw [hn] at hx'
      exact absurd hx' (List.not_mem_nil x)
    · rw [hn] at hx'
      exact absurd hx' hnx
  | opTpcAbort =>
    intro x hx hnx
    have hx' : x ∈ (c.tpc_abort).1.noncurrent := hx
    rcases tpc_abort_fields c with ⟨_, hn, _⟩ | ⟨_, hn, _, _⟩
    · rw [hn] at hx'
      exact absurd hx' (List.not_mem_nil x)
    · rw [hn] at hx'
      exact absurd hx' hnx
  | opCommitSub =>
    intro x hx hnx
    have hx' : x ∈ (c.commit_sub).1.noncurrent := hx
    rw [(ctl_commit_sub c).2.2.2] at hx'
    exact absurd hx' hnx
  | opAbortSub =>
    intro x hx hnx
    have hx' : x ∈ (c.abort_sub).1.noncurrent := hx
    rw [(ctl_abort_sub c).2.2.2] at hx'
    exact absurd hx' hnx
  | opSync =>
    intro x hx hnx
    have hx' : x ∈ (c.sync).1.noncurrent := hx
    rcases (sync_fields c).2 with ⟨_, hn, _⟩ | ⟨_, hn, _⟩
    · rw [hn] at hx'
      exact absurd hx' (List.not_mem_nil x)
    · rw [hn] at hx'
      exact absurd hx' hnx
  | opAbortObj r =>
    intro x hx hnx
    have hx' : x ∈ (c.abortObj r).1.noncurrent := hx
    rw [(ctl_abortObj c r).2.2.2] at hx'
    exact absurd hx' hnx
  | opClose =>
    intro x hx hnx
    exact absurd hx hnx
  | opAdd r =>
    intro x hx hnx
    cases hadd : c.add r with
    | ok c1 =>
      have heq : (applyOp (.opAdd r) c).1 = c1 := by simp only [applyOp, hadd]
      rw [heq] at hx
      rw [(ctl_add c r c1 hadd).2.2.2] at hx
      exact absurd hx hnx
    | error e =>
      have heq : (applyOp (.opAdd r) c).1 = c := by simp only [applyOp, hadd]
      rw [heq] at hx
      exact absurd hx hnx
  | opGet o =>
    intro x hx hnx
    cases hget : c.get o with
    | ok pr =>
      obtain ⟨r0, c1⟩ := pr
      have heq : (applyOp (.opGet o) c).1 = c1 := by simp only [applyOp, hget]
      rw [heq] at hx
      rw [(ctl_get c o r0 c1 hget).2.2.2] at hx
      exact absurd hx hnx
    | error e =>
      have heq : (applyOp (.opGet o) c).1 = c := by simp only [applyOp, hget]
      rw [heq] at hx
      exact absurd hx hnx
  | opSetDB db m =>
    intro x hx hnx
    have hx' : x ∈ (c.setDB db m).1.noncurrent := hx
    rcases (setDB_fields c db m).2 with ⟨_, hn, _⟩ | ⟨_, hn, _⟩ | ⟨_, hn, _⟩
    · rw [hn] at hx'
      exact absurd hx' (List.not_mem_nil x)
    · rw [hn] at hx'
      exact absurd hx' hnx
    · rw [hn] at hx'
      exact absurd hx' hnx

theorem txn_clear_coupled (c : Connection) (op : Op) (h1 : c.txn_time ≠ none)
    (h2 : (applyOp op c).1.txn_time = none) :
    (applyOp op c).1.invalidated = [] ∧ (applyOp op c).1.noncurrent = [] := by
  cases op with
  | opInvalidate tid oids =>
    have h2' : (c.invalidate tid oids).txn_time = none := h2
    exact absurd h2' (invalidate_txn_ne c tid oids)
  | opSetstate r =>
    have h2' : (c.setstate r).1.txn_time = none := h2
    rw [(setstate_facts c r).1] at h2'
    exact absurd h2' h1
  | opCommit r w =>
    have h2' : (c.commit r w).1.txn_time = none := h2
    rw [(ctl_commit c r w).2.2.1] at h2'
    exact absurd h2' h1
  | opTpcBegin s =>
    have h2' : (c.tpc_begin s).txn_time = none := h2
    rw [(ctl_tpc_begin c s).2.2.1] at h2'
    exact absurd h2' h1
  | opTpcVote =>
    have h2' : (c.tpc_vote).1.txn_time = none := h2
    rw [(ctl_tpc_vote c).2.2.1] at h2'
    exact absurd h2' h1
  | opTpcFinish =>
    rcases tpc_finish_fields c with ⟨hi, hn, _⟩ | ⟨_, _, ht⟩
    · exact ⟨hi, hn⟩
    · have h2' : (c.tpc_finish).1.txn_time = none := h2
      rw [ht] at h2'
      exact absurd h2' h1
  | opTpcAbort =>
    rcases tpc_abort_fields c with ⟨hi, hn, _⟩ | ⟨_, _, ht, _⟩
    · exact ⟨hi, hn⟩
    · have h2' : (c.tpc_abort).1.txn_time = none := h2
      rw [ht] at h2'
      exact absurd h2' h1
  | opCommitSub =>
    have h2' : (c.commit_sub).1.txn_time = none := h2
    rw [(ctl_commit_sub c).2.2.1] at h2'
    exact absurd h2' h1
  | opAbortSub =>
    have h2' : (c.abort_sub).1.txn_time = none := h2
    rw [(ctl_abort_sub c).2.2.1] at h2'
    exact absurd h2' h1
  | opSync =>
    rcases (sync_fields c).2 with ⟨hi, hn, _⟩ | ⟨_, _, ht⟩
    · exact ⟨hi, hn⟩
    · have h2' : (c.sync).1.txn_time = none := h2
      rw [ht] at h2'
      exact absurd h2' h1
  | opAbortObj r =>
    have h2' : (c.abortObj r).1.txn_time = none := h2
    rw [(ctl_abortObj c r).2.2.1] at h2'
    exact absurd h2' h1
  | opClose =>
    have h2' : (c.close).txn_time = none := h2
    rw [(ctl_close c).2.2.1] at h2'
    exact absurd h2' h1
  | opAdd r =>
    cases hadd : c.add r with
    | ok c1 =>
      have heq : (applyOp (.opAdd r) c).1 = c1 := by simp only [applyOp, hadd]
      rw [heq] at h2 ⊢
      rw [(ctl_add c r c1 hadd).2.2.1] at h2
      exact absurd h2 h1
    | error e =>
      have heq : (applyOp (.opAdd r) c).1 = c := by simp only [applyOp, hadd]
      rw [heq] at h2 ⊢
      exact absurd h2 h1
  | opGet o =>
    cases hget : c.get o with
    | ok pr =>
      obtain ⟨r0, c1⟩ := pr
      have heq : (applyOp (.opGet o) c).1 = c1 := by simp only [applyOp, hget]
      rw [heq] at h2 ⊢
      rw [(ctl_get c o r0 c1 hget).2.2.1] at h2
      exact absurd h2 h1
    | error e =>
      have heq : (applyOp (.opGet o) c).1 = c := by simp only [applyOp, hget]
      rw [heq] at h2 ⊢
      exact absurd h2 h1
  | opSetDB db m =>
    rcases (setDB_fields c db m).2 with ⟨hi, hn, _⟩ | ⟨_, _, ht⟩ | ⟨_, _, ht⟩
    · exact ⟨hi, hn⟩
    · have h2' : (c.setDB db m).1.txn_time = none := h2
      rw [ht] at h2'
      exact absurd h2' h1
    · have h2' : (c.setDB db m).1.txn_time = none := h2
      rw [ht] at h2'
      exact absurd h2' h1

def db2 : DB := {}

def conn2c : Connection :=
  (applyOp (.opInvalidate 5 [3]) (applyOp (.opSetDB db2 false) (newConn 0 true)).1).1

/-- C2 counterexample: on a reachable state with a pending invalidation, the
cache-reset path of `_setDB` (triggered by a moved global reset counter)
empties `invalidated` while leaving `txn_time` set — contradicting the claim
that no operation empties `invalidated` with `txn_time` still set. -/
theorem C2_counterexample :
    Reachable conn2c ∧
    conn2c.invalidated = [3] ∧
    conn2c.txn_time = some 5 ∧
    (applyOp (.opSetDB db2 true) conn2c).1.invalidated = [] ∧
    (applyOp (.opSetDB db2 true) conn2c).1.txn_time = some 5 := by
  refine ⟨?_, rfl, rfl, rfl, rfl⟩
  exact Reachable.step _ _ (Reachable.step _ _ (Reachable.init 0 true))

/-- C2 (amended): on every reachable state, `txn_time` is already set
whenever an operation adds an oid to `noncurrent`; and an operation that
clears `txn_time` also empties both `invalidated` and `noncurrent`.  (The
converse direction of the original claim fails: `_resetCache` empties
`invalidated` while leaving `txn_time` set, see the counterexample.) -/
theorem C2_txn_time_discipline :
    (∀ c, Reachable c → ∀ (op : Op) (x : Nat),
      x ∈ (applyOp op c).1.noncurrent → x ∉ c.noncurrent → c.txn_time ≠ none) ∧
    (∀ (c : Connection) (op : Op), c.txn_time ≠ none →
      (applyOp op c).1.txn_time = none →
      (applyOp op c).1.invalidated = [] ∧ (applyOp op c).1.noncurrent = []) :=
  ⟨fun c hr op => noncurrent_growth op c (reachable_invTxn c hr),
   txn_clear_coupled⟩

def dbW2 : DB :=
  { storageS :=
      { load := fun oid v => if oid = 7 ∧ v = 0 then some (90, 6) else none,
        loadBefore := fun oid t =>
          if oid = 7 ∧ t = some 8 then .found 40 6 (some 8) else .noneRes } }

def connW2 : Connection :=
  (applyOp (.opGet 7)
    (applyOp (.opInvalidate 8 [7])
      (applyOp (.opSetDB dbW2 false) (newConn 0 true)).1).1).1

/-- C2 witness: the discipline applied at concrete inputs — a setstate that
records a noncurrent oid on a reachable state with `txn_time` set, and a
`tpc_abort` that clears `txn_time` together with both sets. -/
theorem C2_txn_time_discipline_witness :
    connW2.txn_time ≠ none ∧
    ((applyOp .opTpcAbort ({ txn_time := some 5 } : Connection)).1.invalidated = [] ∧
     (applyOp .opTpcAbort ({ txn_time := some 5 } : Connection)).1.noncurrent = []) :=
  ⟨C2_txn_time_discipline.1 connW2
      (Reachable.step _ _ (Reachable.step _ _ (Reachable.step _ _ (Reachable.init 0 true))))
      (.opSetstate 0) 7 (by decide) (by decide),
   C2_txn_time_discipline.2 { txn_time := some 5 } .opTpcAbort
      (fun h => Option.noConfusion h) rfl⟩

/-! Claim C7: `tpc_abort` cleanup.  Heap predicates and how the cleanup
folds establish and preserve them. -/

/-- The object at reference `r` is unbound: `_p_jar` and `_p_oid` deleted.
(An absent reference satisfies this vacuously, as the default object is
unbound.) -/
def UnjarredAt (c : Connection) (r : Nat) : Prop :=
  (c.heapGet r).p_jar = .nil ∧ (c.heapGet r).p_oid = none

/-- The object at reference `r` is a ghost (`_p_changed` is none). -/
def GhostChangedAt (c : Connection) (r : Nat) : Prop :=
  (c.heapGet r).p_changed = none

theorem unjarred_heapSet (c : Connection) (r r' : Nat) (o : PObj)
    (hw : o.p_jar = .nil ∧ o.p_oid = none) (h : UnjarredAt c r) :
    UnjarredAt (c.heapSet r' o) r := by
  by_cases he : r = r'
  · subst he; unfold UnjarredAt; rw [heapGet_heapSet_self]; exact hw
  · unfold UnjarredAt; rw [heapGet_heapSet_ne c r' r o he]; exact h

theorem unjarred_heapSet_keep (c : Connection) (r r' : Nat) (o : PObj)
    (hw : o.p_jar = (c.heapGet r').p_jar ∧ o.p_oid = (c.heapGet r').p_oid)
    (h : UnjarredAt c r) : UnjarredAt (c.heapSet r' o) r := by
  by_cases he : r = r'
  · subst he
    unfold UnjarredAt
    rw [heapGet_heapSet_self, hw.1, hw.2]
    exact h
  · unfold UnjarredAt; rw [heapGet_heapSet_ne c r' r o he]; exact h

theorem ghost_heapSet (c : Connection) (r r' : Nat) (o : PObj)
    (hw : o.p_changed = none) (h : GhostChangedAt c r) :
    GhostChangedAt (c.heapSet r' o) r := by
  by_cases he : r = r'
  · subst he; unfold GhostChangedAt; rw [heapGet_heapSet_self]; exact hw
  · unfold GhostChangedAt; rw [heapGet_heapSet_ne c r' r o he]; exact h

theorem ghost_heapSet_keep (c : Connection) (r r' : Nat) (o : PObj)
    (hw : o.p_changed = (c.heapGet r').p_changed) (h : GhostChangedAt c r) :
    GhostChangedAt (c.heapSet r' o) r := by
  by_cases he : r = r'
  · subst he
    unfold GhostChangedAt
    rw [heapGet_heapSet_self, hw]
    exact h
  · unfold GhostChangedAt; rw [heapGet_heapSet_ne c r' r o he]; exact h

theorem ci1_cache_eq (c : Connection) (oid : Nat) :
    (c.cacheInvalidate1 oid).cache = c.cache := by
  unfold Connection.cacheInvalidate1
  split <;> rfl

theorem cil_cache_eq (c : Connection) (l : List Nat) :
    (c.cacheInvalidateList l).cache = c.cache := by
  unfold Connection.cacheInvalidateList
  exact foldl_pres_conn _ (fun x => x.cache = c.cache)
    (fun cc oid h => (ci1_cache_eq cc oid).trans h) l c rfl

theorem ci1_pres_unjarred (c : Connection) (oid r : Nat) (h : UnjarredAt c r) :
    UnjarredAt (c.cacheInvalidate1 oid) r := by
  unfold Connection.cacheInvalidate1
  split
  · exact h
  · exact unjarred_heapSet_keep _ _ _ _ ⟨rfl, rfl⟩ h

theorem ci1_pres_ghost (c : Connection) (oid r : Nat) (h : GhostChangedAt c r) :
    GhostChangedAt (c.cacheInvalidate1 oid) r := by
  unfold Connection.cacheInvalidate1
  split
  · exact h
  · exact ghost_heapSet _ _ _ _ rfl h

theorem cil_pres_unjarred (l : List Nat) (c : Connection) (r : Nat)
    (h : UnjarredAt c r) : UnjarredAt (c.cacheInvalidateList l) r := by
  unfold Connection.cacheInvalidateList
  exact foldl_pres_conn _ (fun x => UnjarredAt x r)
    (fun cc oid h => ci1_pres_unjarred cc oid r h) l c h

theorem cil_pres_ghost (l : List Nat) (c : Connection) (r : Nat)
    (h : GhostChangedAt c r) : GhostChangedAt (c.cacheInvalidateList l) r := by
  unfold Connection.cacheInvalidateList
  exact foldl_pres_conn _ (fun x => GhostChangedAt x r)
    (fun cc oid h => ci1_pres_ghost cc oid r h) l c h

theorem cil_establishes_ghost (l : List Nat) :
    ∀ (c : Connection) (oid r : Nat), oid ∈ l → alook c.cache oid = some r →
      GhostChangedAt (c.cacheInvalidateList l) r := by
  induction l with
  | nil =>
    intro c oid r h _
    exact absurd h (List.not_mem_nil oid)
  | cons a t ih =>
    intro c oid r hmem hcache
    show GhostChangedAt ((c.cacheInvalidate1 a).cacheInvalidateList t) r
    by_cases hao : a = oid
    · subst hao
      have h1 : GhostChangedAt (c.cacheInvalidate1 a) r := by
        unfold Connection.cacheInvalidate1 GhostChangedAt
        simp only [hcache]
        rw [heapGet_heapSet_self]
      exact cil_pres_ghost t _ r h1
    · rcases List.mem_cons.mp hmem with he | ht2
      · exact absurd he.symm hao
      · refine ih _ oid r ht2 ?_
        rw [ci1_cache_eq]
        exact hcache

theorem ics_pres_unjarred (cc : Connection) (a r : Nat) (h : UnjarredAt cc r) :
    UnjarredAt (Connection.invalidate_creating_step cc a) r := by
  unfold Connection.invalidate_creating_step
  split
  · exact h
  · exact unjarred_heapSet _ _ _ _ ⟨rfl, rfl⟩ h

theorem ics_pres_ghost (cc : Connection) (a r : Nat) (h : GhostChangedAt cc r) :
    GhostChangedAt (Connection.invalidate_creating_step cc a) r := by
  unfold Connection.invalidate_creating_step
  split
  · exact h
  · exact ghost_heapSet_keep _ _ _ _ rfl h

theorem icl_pres_unjarred (l : List Nat) (c : Connection) (r : Nat)
    (h : UnjarredAt c r) : UnjarredAt (c.invalidate_creating_list l) r := by
  unfold Connection.invalidate_creating_list
  exact foldl_pres_conn _ (fun x => UnjarredAt x r)
    (fun cc a h => ics_pres_unjarred cc a r h) l c h

theorem icl_pres_ghost (l : List Nat) (c : Connection) (r : Nat)
    (h : GhostChangedAt c r) : GhostChangedAt (c.invalidate_creating_list l) r := by
  unfold Connection.invalidate_creating_list
  exact foldl_pres_conn _ (fun x => GhostChangedAt x r)
    (fun cc a h => ics_pres_ghost cc a r h) l c h

theorem ics_cache_none (cc : Connection) (a oid : Nat)
    (h : alook cc.cache oid = none) :
    alook (Connection.invalidate_creating_step cc a).cache oid = none := by
  unfold Connection.invalidate_creating_step
  split
  · exact h
  · by_cases hao : oid = a
    · subst hao; exact alook_adel_self cc.cache oid
    · rw [show ((({ cc with cache := adel cc.cache a } : Connection)).heapSet _ _).cache
            = adel cc.cache a from rfl]
      rw [alook_adel_ne cc.cache a oid hao]
      exact h

theorem ics_cache_self (cc : Connection) (a : Nat) :
    alook (Connection.invalidate_creating_step cc a).cache a = none := by
  unfold Connection.invalidate_creating_step
  cases h : alook cc.cache a with
  | none => exact h
  | some r => exact alook_adel_self cc.cache a

theorem icl_cache_none (l : List Nat) :
    ∀ (c : Connection) (oid : Nat), alook c.cache oid = none →
      alook (c.invalidate_creating_list l).cache oid = none := by
  induction l with
  | nil => intro c oid h; exact h
  | cons a t ih =>
    intro c oid h
    exact ih _ oid (ics_cache_none c a oid h)

theorem icl_removes (l : List Nat) :
    ∀ (c : Connection) (oid : Nat), oid ∈ l →
      alook (c.invalidate_creating_list l).cache oid = none := by
  induction l with
  | nil => intro c oid h; exact absurd h (List.not_mem_nil oid)
  | cons a t ih =>
    intro c oid hmem
    show alook ((Connection.invalidate_creating_step c a).invalidate_creating_list t).cache
           oid = none
    by_cases hao : oid = a
    · subst hao
      exact icl_cache_none t _ oid (ics_cache_self c oid)
    · rcases List.mem_cons.mp hmem with he | ht2
      · exact absurd he hao
      · exact ih _ oid ht2

theorem ics_cache_some (cc : Connection) (a oid r : Nat)
    (h : alook (Connection.invalidate_creating_step cc a).cache oid = some r) :
    alook cc.cache oid = some r := by
  unfold Connection.invalidate_creating_step at h
  split at h
  · exact h
  · by_cases hao : oid = a
    · subst hao
      rw [show ((({ cc with cache := adel cc.cache oid } : Connection)).heapSet _ _).cache
            = adel cc.cache oid from rfl] at h
      rw [alook_adel_self cc.cache oid] at h
      exact Option.noConfusion h
    · rw [show ((({ cc with cache := adel cc.cache a } : Connection)).heapSet _ _).cache
            = adel cc.cache a from rfl] at h
      rw [alook_adel_ne cc.cache a oid hao] at h
      exact h

theorem icl_cache_some (l : List Nat) :
    ∀ (c : Connection) (oid r : Nat),
      alook (c.invalidate_creating_list l).cache oid = some r →
      alook c.cache oid = some r := by
  induction l with
  | nil => intro c oid r h; exact h
  | cons a t ih =>
    intro c oid r h
    exact ics_cache_some c a oid r (ih _ oid r h)

theorem icl_unjars (l : List Nat) :
    ∀ (c : Connection) (oid r : Nat), oid ∈ l → alook c.cache oid = some r →
      UnjarredAt (c.invalidate_creating_list l) r := by
  induction l with
  | nil => intro c oid r h _; exact absurd h (List.not_mem_nil oid)
  | cons a t ih =>
    intro c oid r hmem hc
    show UnjarredAt ((Connection.invalidate_creating_step c a).invalidate_creating_list t) r
    by_cases hao : a = oid
    · subst hao
      have h1 : UnjarredAt (Connection.invalidate_creating_step c a) r := by
        unfold Connection.invalidate_creating_step UnjarredAt
        simp only [hc]
        rw [heapGet_heapSet_self]
        exact ⟨rfl, rfl⟩
      exact icl_pres_unjarred t _ r h1
    · rcases List.mem_cons.mp hmem with he | ht2
      · exact absurd he.symm hao
      · refine ih _ oid r ht2 ?_
        unfold Connection.invalidate_creating_step
        cases hca : alook c.cache a with
        | none => exact hc
        | some r2 =>
          rw [show ((({ c with cache := adel c.cache a } : Connection)).heapSet _ _).cache
                = adel c.cache a from rfl]
          rw [alook_adel_ne c.cache a oid (fun h => hao h.symm)]
          exact hc

theorem drain_pres_unjarred (l : List (Nat × Nat)) (c : Connection) (r : Nat)
    (h : UnjarredAt c r) : UnjarredAt (List.foldl Connection.drain_step c l) r :=
  foldl_pres_conn Connection.drain_step (fun x => UnjarredAt x r)
    (fun _ _ h => unjarred_heapSet _ _ _ _ ⟨rfl, rfl⟩ h) l c h

theorem drain_pres_ghost (l : List (Nat × Nat)) (c : Connection) (r : Nat)
    (h : GhostChangedAt c r) : GhostChangedAt (List.foldl Connection.drain_step c l) r :=
  foldl_pres_conn Connection.drain_step (fun x => GhostChangedAt x r)
    (fun _ _ h => ghost_heapSet_keep _ _ _ _ rfl h) l c h

theorem drain_cache_eq (l : List (Nat × Nat)) (c : Connection) :
    (List.foldl Connection.drain_step c l).cache = c.cache :=
  foldl_pres_conn Connection.drain_step (fun x => x.cache = c.cache)
    (fun _ _ h => h) l c rfl

theorem drain_unjars (l : List (Nat × Nat)) :
    ∀ (c : Connection) (pr : Nat × Nat), pr ∈ l →
      UnjarredAt (List.foldl Connection.drain_step c l) pr.2 := by
  induction l with
  | nil => intro c pr h; exact absurd h (List.not_mem_nil pr)
  | cons a t ih =>
    intro c pr hmem
    show UnjarredAt (List.foldl Connection.drain_step (Connection.drain_step c a) t) pr.2
    rcases List.mem_cons.mp hmem with he | ht
    · subst he
      refine drain_pres_unjarred t _ pr.2 ?_
      unfold Connection.drain_step UnjarredAt
      rw [heapGet_heapSet_self]
      exact ⟨rfl, rfl⟩
    · exact ih _ pr ht

theorem flush_ok_eq (c c3 : Connection) (h : c.flush_invalidations = (c3, none)) :
    c3 = { c.cacheInvalidateList c.invalidated with
           invalidated := [], noncurrent := [], txn_time := none } := by
  unfold Connection.flush_invalidations at h
  split at h
  · exact (congrArg Prod.fst h).symm
  · exact Option.noConfusion (congrArg Prod.snd h)

theorem ci1_added_eq (c : Connection) (oid : Nat) :
    (c.cacheInvalidate1 oid).added = c.added := by
  unfold Connection.cacheInvalidate1
  split <;> rfl

theorem ci1_creating_eq (c : Connection) (oid : Nat) :
    (c.cacheInvalidate1 oid).creating = c.creating := by
  unfold Connection.cacheInvalidate1
  split <;> rfl

theorem cil_added_eq (c : Connection) (l : List Nat) :
    (c.cacheInvalidateList l).added = c.added := by
  unfold Connection.cacheInvalidateList
  exact foldl_pres_conn _ (fun x => x.added = c.added)
    (fun cc oid h => (ci1_added_eq cc oid).trans h) l c rfl

theorem cil_creating_eq (c : Connection) (l : List Nat) :
    (c.cacheInvalidateList l).creating = c.creating := by
  unfold Connection.cacheInvalidateList
  exact foldl_pres_conn _ (fun x => x.creating = c.creating)
    (fun cc oid h => (ci1_creating_eq cc oid).trans h) l c rfl

theorem ics_added_eq (cc : Connection) (a : Nat) :
    (Connection.invalidate_creating_step cc a).added = cc.added := by
  unfold Connection.invalidate_creating_step
  split <;> rfl

theorem ics_creating_eq (cc : Connection) (a : Nat) :
    (Connection.invalidate_creating_step cc a).creating = cc.creating := by
  unfold Connection.invalidate_creating_step
  split <;> rfl

theorem icl_added_eq (c : Connection) (l : List Nat) :
    (c.invalidate_creating_list l).added = c.added := by
  unfold Connection.invalidate_creating_list
  exact foldl_pres_conn _ (fun x => x.added = c.added)
    (fun cc a h => (ics_added_eq cc a).trans h) l c rfl

theorem icl_creating_eq (c : Connection) (l : List Nat) :
    (c.invalidate_creating_list l).creating = c.creating := by
  unfold Connection.invalidate_creating_list
  exact foldl_pres_conn _ (fun x => x.creating = c.creating)
    (fun cc a h => (ics_creating_eq cc a).trans h) l c rfl

theorem drain_creating_eq (l : List (Nat × Nat)) (c : Connection) :
    (List.foldl Connection.drain_step c l).creating = c.creating :=
  foldl_pres_conn Connection.drain_step (fun x => x.creating = c.creating)
    (fun _ _ h => h) l c rfl

theorem drain_conflicts_eq (l : List (Nat × Nat)) (c : Connection) :
    (List.foldl Connection.drain_step c l).conflicts = c.conflicts :=
  foldl_pres_conn Connection.drain_step (fun x => x.conflicts = c.conflicts)
    (fun _ _ h => h) l c rfl

theorem ctl_cil_of (c c0 : Connection) (h0 : CtlEq c c0) (l : List Nat) :
    CtlEq c (c0.cacheInvalidateList l) :=
  ctlEq_trans h0 (ctl_cacheInvalidateList c0 l)

/-- The cleanup tail of `tpc_abort` applied to an arbitrary post-flush state
`m`: clear `conflicts`, run `_invalidate_creating`, drain `_added`. -/
theorem cleanup_spec (m : Connection) :
    ((((({ m with conflicts := [] } : Connection).invalidate_creating).drain_added).added
        = []) ∧
     ((((({ m with conflicts := [] } : Connection).invalidate_creating).drain_added)).creating
        = []) ∧
     ((((({ m with conflicts := [] } : Connection).invalidate_creating).drain_added)).conflicts
        = [])) ∧
    (∀ pr ∈ m.added,
      UnjarredAt ((({ m with conflicts := [] } : Connection).invalidate_creating).drain_added)
        pr.2) ∧
    (∀ oid ∈ m.creating,
      alook ((({ m with conflicts := [] } :
        Connection).invalidate_creating).drain_added).cache oid = none) ∧
    (∀ oid ∈ m.creating, ∀ r, alook m.cache oid = some r →
      UnjarredAt ((({ m with conflicts := [] } : Connection).invalidate_creating).drain_added)
        r) ∧
    (∀ r, GhostChangedAt m r →
      GhostChangedAt
        ((({ m with conflicts := [] } : Connection).invalidate_creating).drain_added) r) ∧
    (∀ oid r,
      alook ((({ m with conflicts := [] } :
        Connection).invalidate_creating).drain_added).cache oid = some r →
      alook m.cache oid = some r) := by
  unfold Connection.invalidate_creating Connection.drain_added
  dsimp only
  refine ⟨⟨rfl, ?_, ?_⟩, ?_, ?_, ?_, ?_, ?_⟩
  · rw [drain_creating_eq, icl_creating_eq]
  · rw [drain_conflicts_eq, (ctl_invalidate_creating_list _ _).1]
  · intro pr hpr
    refine drain_unjars _ _ pr ?_
    rw [icl_added_eq]
    exact hpr
  · intro oid hoid
    rw [drain_cache_eq]
    exact icl_removes _ _ oid hoid
  · intro oid hoid r hr
    refine drain_pres_unjarred _ _ r (icl_unjars _ _ oid r hoid ?_)
    exact hr
  · intro r hg
    exact drain_pres_ghost _ _ r (icl_pres_ghost _ _ r hg)
  · intro oid r hr
    rw [drain_cache_eq] at hr
    have hb := icl_cache_some _ _ oid r hr
    exact hb

/-- C7: after `tpc_abort` (the internal flush assert `noncurrent ⊆
invalidated` holding), `_added` has been drained with every added object
unjarred, every oid of `_creating` has been dropped from the cache and its
cached object unjarred, `_creating` is empty, every still-cached `_modified`
oid has been ghosted, and `_conflicts` is cleared. -/
theorem C7_tpc_abort (c : Connection)
    (hok : c.noncurrent.all (fun oid => decide (oid ∈ c.invalidated)) = true) :
    ∃ c5, c.tpc_abort = (c5, none) ∧
      c5.added = [] ∧ c5.creating = [] ∧ c5.conflicts = [] ∧
      (∀ pr ∈ c.added, UnjarredAt c5 pr.2) ∧
      (∀ oid ∈ c.creating, alook c5.cache oid = none) ∧
      (∀ oid ∈ c.creating, ∀ r, alook c.cache oid = some r → UnjarredAt c5 r) ∧
      (∀ oid ∈ c.modified, ∀ r, alook c5.cache oid = some r → GhostChangedAt c5 r) := by
  unfold Connection.tpc_abort
  dsimp only
  set c2 := Connection.cacheInvalidateList { c with importPending := false } c.modified
    with hc2
  have hctl2 : CtlEq c c2 := by
    rw [hc2]
    refine ctl_cil_of c _ ?_ _
    exact ⟨rfl, rfl, rfl, rfl⟩
  have hc2_added : c2.added = c.added := by
    rw [hc2]; exact cil_added_eq _ _
  have hc2_creating : c2.creating = c.creating := by
    rw [hc2]; exact cil_creating_eq _ _
  have hc2_cache : c2.cache = c.cache := by
    rw [hc2]; exact cil_cache_eq _ _
  have hcond : (c2.noncurrent.all fun oid => decide (oid ∈ c2.invalidated)) = true := by
    simp only [hctl2.2.1, hctl2.2.2.2]
    exact hok
  have hflush : c2.flush_invalidations =
      ({ c2.cacheInvalidateList c2.invalidated with
         invalidated := [], noncurrent := [], txn_time := none }, none) := by
    unfold Connection.flush_invalidations
    rw [if_pos hcond]
  rw [hflush]
  dsimp only
  set X := c2.cacheInvalidateList c2.invalidated with hX
  have hX_added : X.added = c.added := by
    rw [hX, cil_added_eq]; exact hc2_added
  have hX_creating : X.creating = c.creating := by
    rw [hX, cil_creating_eq]; exact hc2_creating
  have hX_cache : X.cache = c.cache := by
    rw [hX, cil_cache_eq]; exact hc2_cache
  have hcl := cleanup_spec
    ({ X with invalidated := [], noncurrent := [], txn_time := none } : Connection)
  refine ⟨_, rfl, hcl.1.1, hcl.1.2.1, hcl.1.2.2, ?_, ?_, ?_, ?_⟩
  · intro pr hpr
    exact hcl.2.1 pr (hX_added.symm ▸ hpr)
  · intro oid hoid
    exact hcl.2.2.1 oid (hX_creating.symm ▸ hoid)
  · intro oid hoid r hr
    exact hcl.2.2.2.1 oid (hX_creating.symm ▸ hoid) r (hX_cache.symm ▸ hr)
  · intro oid hoid r hr
    have hcc : alook c.cache oid = some r := by
      rw [← hX_cache]
      exact hcl.2.2.2.2.2 oid r hr
    have hg2 : GhostChangedAt c2 r := by
      rw [hc2]
      exact cil_establishes_ghost c.modified { c with importPending := false } oid r hoid hcc
    have hgX : GhostChangedAt X r := by
      rw [hX]
      exact cil_pres_ghost _ _ r hg2
    exact hcl.2.2.2.2.1 r hgX

def conn7 : Connection :=
  { added := [(10, 0)],
    creating := [11],
    modified := [12],
    conflicts := [12],
    cache := [(11, 1), (12, 2)],
    heap := [(0, { p_oid := some 10, p_jar := .this, p_changed := some true }),
             (1, { p_oid := some 11, p_jar := .this, p_changed := some false }),
             (2, { p_oid := some 12, p_jar := .this, p_changed := some true,
                   stateData := some 9 })] }

/-- C7 witness: the abort-purity conclusion instantiated at a concrete
connection with an added object, a created oid and a modified oid. -/
theorem C7_tpc_abort_witness :
    ∃ c5, conn7.tpc_abort = (c5, none) ∧
      c5.added = [] ∧ c5.creating = [] ∧ c5.conflicts = [] ∧
      (∀ pr ∈ conn7.added, UnjarredAt c5 pr.2) ∧
      (∀ oid ∈ conn7.creating, alook c5.cache oid = none) ∧
      (∀ oid ∈ conn7.creating, ∀ r, alook conn7.cache oid = some r → UnjarredAt c5 r) ∧
      (∀ oid ∈ conn7.modified, ∀ r, alook c5.cache oid = some r → GhostChangedAt c5 r) :=
  C7_tpc_abort conn7 rfl

end ZODB
